import Mathlib

/-!
# Verification of the signal-processing core of Signal-analysis-pro

A shallow embedding over `ℝ` of `src/services/signalProcessor.ts`, together with
theorems settling the specification claims about it.

Modelling conventions:
* JavaScript numbers are modelled as real numbers; array indices and lengths as `ℕ`.
* A JavaScript function that can throw or fail to terminate is modelled with an
  `Option` result (`none` = raises / never returns).
* `Array.prototype.sort((a, b) => a - b)` is modelled by `List.insertionSort (· ≤ ·)`
  (ascending, stable).
* JS `undefined` read from an out-of-range index is modelled by `Option`.
-/

open Real

noncomputable section

/-- JS `Math.round x = ⌊x + 0.5⌋` (round half toward `+∞`). -/
def jsRound (x : ℝ) : ℤ := ⌊x + 1 / 2⌋

/-- JS truncation toward zero, as used by the `%` operator. -/
def jsTrunc (t : ℝ) : ℤ := if 0 ≤ t then ⌊t⌋ else ⌈t⌉

/-- JS remainder `a % b = a - b * trunc (a / b)`. -/
def jsMod (a b : ℝ) : ℝ := a - b * (jsTrunc (a / b) : ℝ)

/-- JS `Math.atan2 y x`: the principal argument of `x + y·i`, range `(-π, π]`,
with `atan2 0 0 = 0`; this is exactly `Complex.arg`. -/
def jsAtan2 (y x : ℝ) : ℝ := Complex.arg (x + y * Complex.I)

/-- JS `Math.log10`. -/
def jsLog10 (x : ℝ) : ℝ := Real.logb 10 x

/-- Start indices of the strided loop `for (i = 0; i + frame <= len; i += hop)`.
`none` models the JS loop never terminating (`hop = 0` while at least one frame
fits). -/
def frameStarts (len frame hop : ℕ) : Option (List ℕ) :=
  if frame ≤ len then
    if hop = 0 then none
    else some ((List.range ((len - frame) / hop + 1)).map (· * hop))
  else some []

/-! ## The radix-2 FFT (`fft`, lines 9-57) -/

/-- Fuelled helper for `bitrevWhile`; since `m` at least halves on every
iteration, fuel `m + 1` always suffices (`bitrevWhile_eq`). -/
def bitrevWhileAux : ℕ → ℕ → ℕ → ℕ × ℕ
  | 0, j, m => (j, m)
  | fuel + 1, j, m => if m ≤ j ∧ 0 < m then bitrevWhileAux fuel (j - m) (m / 2) else (j, m)

/-- Inner while-loop of the bit-reversal permutation:
`while (j >= m && m > 0) { j -= m; m >>= 1 }`. -/
def bitrevWhile (j m : ℕ) : ℕ × ℕ := bitrevWhileAux (m + 1) j m

theorem bitrevWhileAux_congr : ∀ f₁ f₂ j m, m < f₁ → m < f₂ →
    bitrevWhileAux f₁ j m = bitrevWhileAux f₂ j m := by
  intro f₁
  induction f₁ with
  | zero => intro f₂ j m h1; omega
  | succ f ih =>
    intro f₂ j m h1 h2
    cases f₂ with
    | zero => omega
    | succ f' =>
      simp only [bitrevWhileAux]
      split
      · rename_i hc
        exact ih f' (j - m) (m / 2) (by omega) (by omega)
      · rfl

/-- `bitrevWhile` satisfies the defining equation of the source's while-loop. -/
theorem bitrevWhile_eq (j m : ℕ) :
    bitrevWhile j m = if m ≤ j ∧ 0 < m then bitrevWhile (j - m) (m / 2) else (j, m) := by
  unfold bitrevWhile
  conv_lhs => rw [bitrevWhileAux]
  split
  · rename_i hc
    exact bitrevWhileAux_congr _ _ _ _ (by omega) (by omega)
  · rfl

/-- Body of the bit-reversal `for` loop at index `i`: optionally swap
`real[i]`/`real[j]`, then advance the mirrored counter `j`
(`m = n >> 1` is reset each iteration; after the while-loop, `j += m`). -/
def bitrevStep (n : ℕ) (s : List ℝ × ℕ) (i : ℕ) : List ℝ × ℕ :=
  let real := if i < s.2 then (s.1.set i (s.1.getD s.2 0)).set s.2 (s.1.getD i 0) else s.1
  let jm := bitrevWhile s.2 (n / 2)
  (real, jm.1 + jm.2)

/-- The in-place bit-reversal permutation pass of `fft` (lines 17-29). -/
def bitrevPass (n : ℕ) (real : List ℝ) : List ℝ :=
  ((List.range n).foldl (bitrevStep n) (real, 0)).1

/-- Innermost butterfly update (the `k` loop body, lines 39-53); the state is
`(real, imag, wk_real, wk_imag)`.  All reads happen before the writes, as in the
source. -/
def butterflyK (wRe wIm : ℝ) (i halfLen : ℕ)
    (s : List ℝ × List ℝ × ℝ × ℝ) (k : ℕ) : List ℝ × List ℝ × ℝ × ℝ :=
  let re := s.1
  let im := s.2.1
  let wkRe := s.2.2.1
  let wkIm := s.2.2.2
  let uRe := re.getD (i + k) 0
  let uIm := im.getD (i + k) 0
  let vRe := re.getD (i + k + halfLen) 0 * wkRe - im.getD (i + k + halfLen) 0 * wkIm
  let vIm := re.getD (i + k + halfLen) 0 * wkIm + im.getD (i + k + halfLen) 0 * wkRe
  ((re.set (i + k) (uRe + vRe)).set (i + k + halfLen) (uRe - vRe),
   (im.set (i + k) (uIm + vIm)).set (i + k + halfLen) (uIm - vIm),
   wkRe * wRe - wkIm * wIm, wkRe * wIm + wkIm * wRe)

/-- One block (`i` loop body, lines 36-54) of a butterfly stage: the `k` loop with
`wk` reset to `1 + 0·i`. -/
def butterflyBlock (wRe wIm : ℝ) (halfLen : ℕ) (s : List ℝ × List ℝ) (i : ℕ) :
    List ℝ × List ℝ :=
  let r := (List.range halfLen).foldl (butterflyK wRe wIm i halfLen) (s.1, s.2, 1, 0)
  (r.1, r.2.1)

/-- One stage (`len` loop body, lines 31-55) of the iterative FFT. -/
def butterflyStage (n : ℕ) (s : List ℝ × List ℝ) (len : ℕ) : List ℝ × List ℝ :=
  let halfLen := len / 2
  let angle : ℝ := -2 * π / (len : ℝ)
  let wRe := Real.cos angle
  let wIm := Real.sin angle
  ((List.range ((n + len - 1) / len)).map (· * len)).foldl (butterflyBlock wRe wIm halfLen) s

/-- The stage lengths `2, 4, …, n` of `for (len = 2; len <= n; len <<= 1)`. -/
def stageLens (n : ℕ) : List ℕ := (List.range (Nat.log2 n)).map fun s => 2 ^ (s + 1)

/-- Body of `fft` after the power-of-two guard. -/
def fftCompute (input : List ℝ) : List ℝ × List ℝ :=
  let n := input.length
  (stageLens n).foldl (butterflyStage n) (bitrevPass n input, List.replicate n 0)

/-- `fft` (lines 9-57): `none` models the thrown error when the length is neither
zero nor a power of two. -/
def fft (input : List ℝ) : Option (List ℝ × List ℝ) :=
  let n := input.length
  if n &&& (n - 1) ≠ 0 ∧ n ≠ 0 then none else some (fftCompute input)

/-! ## `calculateFFT` (lines 103-122) -/

/-- The zero-padded length `2 ^ (data.length > 0 ? ⌈log2 len⌉ : 0)` (lines 104-105). -/
def fftPadLen (len : ℕ) : ℕ :=
  2 ^ (if 0 < len then (⌈Real.logb 2 (len : ℝ)⌉).toNat else 0)

/-- `calculateFFT`: zero-pad to the next power of two, transform, and return the
half-spectrum `(magnitudes, frequencies)`.  `none` models the `RangeError` that
JavaScript raises at `new Array(halfLength)` when `halfLength = paddedLength / 2`
is not an integer, which happens exactly when `paddedLength = 1`
(i.e. `data.length ≤ 1`). -/
def calculateFFT (data : List ℝ) (samplingRate : ℝ) : Option (List ℝ × List ℝ) :=
  let paddedLength := fftPadLen data.length
  let paddedData := data ++ List.replicate (paddedLength - data.length) 0
  match fft paddedData with
  | none => none
  | some ri =>
    if 2 ∣ paddedLength then
      let halfLength := paddedLength / 2
      some ((List.range halfLength).map fun i : ℕ =>
              2 / (paddedLength : ℝ) *
                Real.sqrt (ri.1.getD i 0 * ri.1.getD i 0 + ri.2.getD i 0 * ri.2.getD i 0),
            (List.range halfLength).map fun i : ℕ => (i : ℝ) * samplingRate / (paddedLength : ℝ))
    else none

/-! ### Basic facts about the FFT embedding -/

theorem foldl_invariant {α β : Type*} (P : β → Prop) (step : β → α → β) (l : List α)
    (init : β) (h0 : P init) (hstep : ∀ s a, P s → P (step s a)) :
    P (l.foldl step init) := by
  induction l generalizing init with
  | nil => exact h0
  | cons a l ih => exact ih _ (hstep _ _ h0)

theorem two_pow_land_pred (p : ℕ) : 2 ^ p &&& (2 ^ p - 1) = 0 := by
  apply Nat.zero_of_testBit_eq_false
  intro i
  rw [Nat.testBit_land]
  rcases eq_or_ne i p with rfl | h
  · have : (2 ^ i - 1).testBit i = false := by
      simp [Nat.testBit_two_pow_sub_one]
    simp [this]
  · have : (2 ^ p).testBit i = false := by
      rw [Nat.testBit_two_pow]
      simpa using fun hc => h hc.symm
    simp [this]

theorem bitrevPass_length (n : ℕ) (l : List ℝ) : (bitrevPass n l).length = l.length := by
  unfold bitrevPass
  have h : ∀ s : List ℝ × ℕ, s.1.length = l.length →
      ∀ i, ((bitrevStep n) s i).1.length = l.length := by
    intro s hs i
    unfold bitrevStep
    dsimp only
    split <;> simp [hs]
  exact foldl_invariant (fun s : List ℝ × ℕ => s.1.length = l.length) _ _ _ rfl
    (fun s a hs => h s hs a)

theorem butterflyK_length (wRe wIm : ℝ) (i halfLen : ℕ) (s : List ℝ × List ℝ × ℝ × ℝ)
    (k : ℕ) (m : ℕ) (h1 : s.1.length = m) (h2 : s.2.1.length = m) :
    ((butterflyK wRe wIm i halfLen s k).1.length = m ∧
     (butterflyK wRe wIm i halfLen s k).2.1.length = m) := by
  unfold butterflyK
  simp [h1, h2]

theorem butterflyBlock_length (wRe wIm : ℝ) (halfLen : ℕ) (s : List ℝ × List ℝ) (i : ℕ)
    (m : ℕ) (h1 : s.1.length = m) (h2 : s.2.length = m) :
    ((butterflyBlock wRe wIm halfLen s i).1.length = m ∧
     (butterflyBlock wRe wIm halfLen s i).2.length = m) := by
  unfold butterflyBlock
  have := foldl_invariant
    (fun t : List ℝ × List ℝ × ℝ × ℝ => t.1.length = m ∧ t.2.1.length = m)
    (butterflyK wRe wIm i halfLen) (List.range halfLen) (s.1, s.2, 1, 0)
    ⟨h1, h2⟩ (fun t k ht => butterflyK_length wRe wIm i halfLen t k m ht.1 ht.2)
  exact this

theorem fftCompute_length (l : List ℝ) :
    (fftCompute l).1.length = l.length ∧ (fftCompute l).2.length = l.length := by
  unfold fftCompute
  exact foldl_invariant
    (fun s : List ℝ × List ℝ => s.1.length = l.length ∧ s.2.length = l.length)
    (butterflyStage l.length) (stageLens l.length)
    (bitrevPass l.length l, List.replicate l.length 0)
    ⟨bitrevPass_length _ _, by simp⟩
    (fun s len hs => by
      unfold butterflyStage
      exact foldl_invariant
        (fun t : List ℝ × List ℝ => t.1.length = l.length ∧ t.2.length = l.length)
        _ _ s hs (fun t i ht => butterflyBlock_length _ _ _ t i _ ht.1 ht.2))

/-! ## Filter stage (lines 124-233) -/

inductive FilterType
  | NONE
  | LOWPASS
  | HIGHPASS
  | BANDPASS
deriving DecidableEq

/-- The TS union `cutoff: number | [number, number]`. -/
inductive Cutoff
  | single (c : ℝ)
  | band (lo hi : ℝ)

structure FilterSettings where
  cutoff : Cutoff

/-- Body of sample `i` of `applyIIRFilter` (lines 134-148): `out` holds the
already computed outputs `output[0..i-1]`; the guards model `i - j >= 0`. -/
def iirStep (b a x : List ℝ) (out : List ℝ) (i : ℕ) : List ℝ :=
  let yb := (List.range b.length).foldl
    (fun y_i j => if j ≤ i then y_i + b.getD j 0 * x.getD (i - j) 0 else y_i) 0
  let y := (List.range' 1 (a.length - 1)).foldl
    (fun y_i j => if j ≤ i then y_i - a.getD j 0 * out.getD (i - j) 0 else y_i) yb
  out ++ [y]

/-- `applyIIRFilter` (lines 128-151). -/
def applyIIRFilter (data b a : List ℝ) : List ℝ :=
  (List.range data.length).foldl (iirStep b a data) []

/-- `designButterworthFilter` (lines 158-214). -/
def designButterworthFilter (type : FilterType) (cutoff : Cutoff) (samplingRate : ℝ) :
    List ℝ × List ℝ :=
  match type, cutoff with
  | FilterType.LOWPASS, Cutoff.single c =>
    let wc := 2 * π * c / samplingRate
    let C := 1 / Real.tan (wc / 2)
    let C2 := C * C
    let sqrt2C := Real.sqrt 2 * C
    let a0 := C2 + sqrt2C + 1
    let a1 := 2 * (1 - C2)
    let a2 := C2 - sqrt2C + 1
    ([1 / a0, 2 / a0, 1 / a0], [1, a1 / a0, a2 / a0])
  | FilterType.HIGHPASS, Cutoff.single c =>
    let wc := 2 * π * c / samplingRate
    let C := 1 / Real.tan (wc / 2)
    let C2 := C * C
    let sqrt2C := Real.sqrt 2 * C
    let a0 := C2 + sqrt2C + 1
    let a1 := 2 * (1 - C2)
    let a2 := C2 - sqrt2C + 1
    ([C2 / a0, -2 * C2 / a0, C2 / a0], [1, a1 / a0, a2 / a0])
  | FilterType.BANDPASS, Cutoff.band lowCutoff highCutoff =>
    if lowCutoff ≤ 0 ∨ highCutoff ≤ lowCutoff ∨ samplingRate / 2 ≤ highCutoff then
      ([1], [1])
    else
      let f0 := Real.sqrt (lowCutoff * highCutoff)
      let Q := f0 / (highCutoff - lowCutoff)
      let w0 := 2 * π * f0 / samplingRate
      let alpha := Real.sin w0 / (2 * Q)
      let a0_val := 1 + alpha
      let a1 := -2 * Real.cos w0
      let a2 := 1 - alpha
      ([alpha / a0_val, 0 / a0_val, -alpha / a0_val], [1, a1 / a0_val, a2 / a0_val])
  | _, _ => ([1], [1])

/-- `applyFilter` (lines 219-233). -/
def applyFilter (channelData : List ℝ) (filterType : FilterType)
    (filterSettings : FilterSettings) (samplingRate : ℝ) : List ℝ :=
  if filterType = FilterType.NONE then channelData
  else
    let ba := designButterworthFilter filterType filterSettings.cutoff samplingRate
    if ba.1.length = 1 ∧ ba.2.length = 1 ∧ ba.1.getD 0 0 = 1 ∧ ba.2.getD 0 0 = 1 then
      channelData
    else applyIIRFilter channelData ba.1 ba.2

/-! ## Welch PSD (`calculateWelchPsd`, lines 253-297) -/

/-- `2 ^ ⌈log2 m⌉`, as computed by `Math.pow(2, Math.ceil(Math.log2 m))`
(`m = 0` gives `Math.pow(2, -Infinity) = 0`). -/
def nextPow2Ceil (m : ℕ) : ℕ :=
  if m = 0 then 0 else 2 ^ (⌈Real.logb 2 (m : ℝ)⌉).toNat

/-- `2 ^ ⌊log2 m⌋`, as computed by `Math.pow(2, Math.floor(Math.log2 m))`
(`m = 0` gives `0`). -/
def prevPow2Floor (m : ℕ) : ℕ :=
  if m = 0 then 0 else 2 ^ (⌊Real.logb 2 (m : ℝ)⌋).toNat

/-- The Hann window `0.5 * (1 - cos (2π i / (nperseg - 1)))` of line 264.
(For `nperseg = 1` JavaScript computes `cos (0/0) = NaN`; in that case the
enclosing segment loop never terminates, so the window is never consumed.) -/
def hannWindow (nperseg : ℕ) : List ℝ :=
  (List.range nperseg).map fun i : ℕ => 0.5 * (1 - Real.cos (2 * π * (i : ℝ) / ((nperseg : ℝ) - 1)))

/-- Body of `calculateWelchPsd` from line 262 on, after `nperseg` has been fixed.
`none` models the non-terminating segment loop (`hopSize = 0` with a segment
fitting).  The `fft` call cannot throw here because the padded segment has
length `nfft`, a power of two (or `nfft = 0`), so the body `fftCompute` is used
directly. -/
def welchBody (data : List ℝ) (samplingRate : ℝ) (nperseg : ℕ) :
    Option (List ℝ × List ℝ) :=
  let nfft := nextPow2Ceil nperseg
  let hopSize := nperseg / 2
  let window := hannWindow nperseg
  let freqs := (List.range (nfft / 2 + 1)).map fun i : ℕ => (i : ℝ) * samplingRate / (nfft : ℝ)
  (frameStarts data.length nperseg hopSize).map fun starts =>
    let psdRaw := starts.foldl (fun acc i =>
      let segment := (data.drop i).take nperseg
      let windowedSegment := segment.zipWith (· * ·) window
      let paddedData := windowedSegment ++ List.replicate (nfft - nperseg) 0
      let ri := fftCompute paddedData
      (List.range (nfft / 2 + 1)).map fun j =>
        acc.getD j 0 + (ri.1.getD j 0 * ri.1.getD j 0 + ri.2.getD j 0 * ri.2.getD j 0))
      (List.replicate (nfft / 2 + 1) (0 : ℝ))
    let numSegments := starts.length
    if 0 < numSegments then
      let windowPower := window.foldl (fun acc val => acc + val * val) 0
      let scale := 1 / (samplingRate * windowPower * (numSegments : ℝ))
      (freqs, (List.range psdRaw.length).map fun i =>
        if 0 < i ∧ i < psdRaw.length - 1 then psdRaw.getD i 0 * scale * 2
        else psdRaw.getD i 0 * scale)
    else (freqs, psdRaw)

/-- `calculateWelchPsd` (lines 256-297). -/
def calculateWelchPsd (data : List ℝ) (samplingRate : ℝ) (nperseg : ℕ := 256) :
    Option (List ℝ × List ℝ) :=
  if data.length < nperseg then
    let nperseg' := prevPow2Floor data.length
    if nperseg' = 0 then some ([], []) else welchBody data samplingRate nperseg'
  else welchBody data samplingRate nperseg

/-! ## Noise estimation (`estimateNoise`, lines 303-366) -/

structure NoiseInfo where
  /-- `none` models the JS value `-Infinity` returned in the degenerate case. -/
  noise_power_db : Option ℝ
  noise_percentage : ℝ
  noise_samples_count : ℕ
  freqs : List ℝ
  psd_db : List ℝ
  frameEnergies : List ℝ
  frameTimes : List ℝ
  /-- `none` models the JS value `undefined` (out-of-range percentile index). -/
  threshold : Option ℝ
  noiseMask : List Bool

/-- The frame mean-square energies of lines 310-315; `none` models the
non-terminating frame loop. -/
def frameEnergiesOf (channelData : List ℝ) (samplingRate frameLengthSec : ℝ) :
    Option (List ℝ) :=
  let frameLength := (⌊frameLengthSec * samplingRate⌋).toNat
  let hopLength := frameLength / 2
  (frameStarts channelData.length frameLength hopLength).map fun starts =>
    starts.map fun i =>
      ((channelData.drop i).take frameLength).foldl (fun sum val => sum + val * val) 0
        / (frameLength : ℝ)

/-- Threshold selection of lines 331-332: ascending sort, then the element at
index `⌊percentile / 100 * n⌋`; `none` models the JS `undefined` read when the
index is out of range. -/
def noiseThreshold (frameEnergies : List ℝ) (percentile : ℝ) : Option ℝ :=
  let sortedEnergies := frameEnergies.insertionSort (· ≤ ·)
  let idx : ℤ := ⌊percentile / 100 * (sortedEnergies.length : ℝ)⌋
  if idx < 0 then none else sortedEnergies[idx.toNat]?

/-- The noise mask of line 334: `e <= threshold` (`false` against `undefined`). -/
def noiseMaskOf (frameEnergies : List ℝ) (percentile : ℝ) : List Bool :=
  frameEnergies.map fun e =>
    match noiseThreshold frameEnergies percentile with
    | some t => decide (e ≤ t)
    | none => false

/-- `estimateNoise` (lines 303-366).  `noise_samples_count` accumulates the
lengths of the pooled (boundary-clipped) noise frames, which equals the length
of their concatenation. -/
def estimateNoise (channelData : List ℝ) (samplingRate frameLengthSec percentile : ℝ) :
    Option NoiseInfo := do
  let frameLength := (⌊frameLengthSec * samplingRate⌋).toNat
  let hopLength := frameLength / 2
  let frameEnergies ← frameEnergiesOf channelData samplingRate frameLengthSec
  let starts ← frameStarts channelData.length frameLength hopLength
  let frameTimes := starts.map fun i : ℕ => ((i : ℝ) + (frameLength : ℝ) / 2) / samplingRate
  if frameEnergies.length = 0 then
    return { noise_power_db := none, noise_percentage := 0, noise_samples_count := 0,
             freqs := [], psd_db := [], frameEnergies := [], frameTimes := [],
             threshold := some 0, noiseMask := [] }
  else
    let threshold := noiseThreshold frameEnergies percentile
    let noiseMask := noiseMaskOf frameEnergies percentile
    let noiseSamples := ((List.range noiseMask.length).filter
        fun i => noiseMask.getD i false).flatMap
        fun i => (channelData.drop (i * hopLength)).take frameLength
    let noiseSamplesCount := noiseSamples.length
    let noisePower := if 0 < noiseSamples.length then
        (noiseSamples.foldl (fun sum val => sum + val * val) 0) / (noiseSamples.length : ℝ)
      else 0
    let noise_power_db := 10 * jsLog10 (if noisePower = 0 then 1e-12 else noisePower)
    let noise_percentage := (noiseSamplesCount : ℝ) / (channelData.length : ℝ) * 100
    let fp ← if 0 < noiseSamples.length then calculateWelchPsd noiseSamples samplingRate 256
      else pure ([], [])
    let psd_db := fp.2.map fun p => 10 * jsLog10 (p + 1e-15)
    return { noise_power_db := some noise_power_db, noise_percentage := noise_percentage,
             noise_samples_count := noiseSamplesCount, freqs := fp.1, psd_db := psd_db,
             frameEnergies := frameEnergies, frameTimes := frameTimes,
             threshold := threshold, noiseMask := noiseMask }

/-! ## Tonal detection (`detectTonals`, lines 371-467) -/

structure Tonal where
  frequency : ℝ
  power : ℝ
  snr : ℝ

structure PersistentTonal where
  frequency_mean : ℝ
  snr_mean : ℝ
  power_mean : ℝ
  n_detections : ℕ

/-- Median-based noise-floor estimate for a candidate peak at bin `k`
(lines 400-422): the dB values in the `±noiseWindowBins` neighbourhood,
excluding the peak and its immediate neighbours; if more than 5 such values
exist, their median, otherwise the median of the entire `psd_db`.
(`k - noiseWindowBins` in `ℕ` equals the source's `Math.max(0, k - bins)`.) -/
def noiseFloorAt (psd_db : List ℝ) (k noiseWindowBins : ℕ) : ℝ :=
  let before := (List.range' (k - noiseWindowBins) (k - 1 - (k - noiseWindowBins))).map
    (psd_db.getD · 0)
  let after := (List.range' (k + 2)
    (min (psd_db.length - 1) (k + noiseWindowBins) + 1 - (k + 2))).map (psd_db.getD · 0)
  let noiseEstimateValues := before ++ after
  if 5 < noiseEstimateValues.length then
    let sortedNoiseValues := noiseEstimateValues.insertionSort (· ≤ ·)
    sortedNoiseValues.getD (sortedNoiseValues.length / 2) 0
  else
    let globalSortedPsd := psd_db.insertionSort (· ≤ ·)
    globalSortedPsd.getD (globalSortedPsd.length / 2) 0

/-- The number of dB values pooled by `noiseFloorAt` for a peak at bin `k`:
the size of the censored `±noiseWindowBins` neighbourhood. -/
def noiseWindowCount (psd_db : List ℝ) (k noiseWindowBins : ℕ) : ℕ :=
  (k - 1 - (k - noiseWindowBins)) +
    (min (psd_db.length - 1) (k + noiseWindowBins) + 1 - (k + 2))

/-- Per-frame peak detection: the `k` loop of lines 396-430 over interior bins
`1 ≤ k < psd_db.length - 1`, in ascending order. -/
def frameTonals (freqs psd_db : List ℝ) (freqRange : ℝ × ℝ) (minSnrDb : ℝ)
    (noiseWindowBins : ℕ) : List Tonal :=
  (List.range' 1 (psd_db.length - 2)).filterMap fun k =>
    if (freqRange.1 ≤ freqs.getD k 0 ∧ freqs.getD k 0 ≤ freqRange.2) ∧
       (psd_db.getD (k - 1) 0 < psd_db.getD k 0 ∧ psd_db.getD (k + 1) 0 < psd_db.getD k 0) ∧
       minSnrDb ≤ psd_db.getD k 0 - noiseFloorAt psd_db k noiseWindowBins
    then some { frequency := freqs.getD k 0, power := psd_db.getD k 0,
                snr := psd_db.getD k 0 - noiseFloorAt psd_db k noiseWindowBins }
    else none

/-- Insert a fresh bin keyed `key`, keeping the association list sorted by key
(JavaScript objects enumerate integer-like keys in ascending numeric order). -/
def insertBinSorted (key : ℤ) (t : Tonal) : List (ℤ × List Tonal) → List (ℤ × List Tonal)
  | [] => [(key, [t])]
  | b :: rest => if key ≤ b.1 then (key, [t]) :: b :: rest else b :: insertBinSorted key t rest

/-- Scan the bins in key order for the first within 50 Hz (lines 441-447);
`none` when no bin matches. -/
def addTonalAux (t : Tonal) : List (ℤ × List Tonal) → Option (List (ℤ × List Tonal))
  | [] => none
  | b :: rest =>
    if |t.frequency - (b.1 : ℝ)| < 50 then some ((b.1, b.2 ++ [t]) :: rest)
    else (addTonalAux t rest).map (b :: ·)

/-- Associate one tonal (lines 439-451): append to the first matching bin, else
open a new bin keyed `Math.round(frequency)`.  A fresh key always differs from
every existing key (it would otherwise have matched within 50 Hz). -/
def addTonal (bins : List (ℤ × List Tonal)) (t : Tonal) : List (ℤ × List Tonal) :=
  (addTonalAux t bins).getD (insertBinSorted (jsRound t.frequency) t bins)

/-- `detectTonals` (lines 371-467).  `none` models a non-terminating loop. -/
def detectTonals (channelData : List ℝ) (samplingRate : ℝ) (freqRange : ℝ × ℝ)
    (minSnrDb frameDuration : ℝ) (minFramesPresent : ℕ) :
    Option (List PersistentTonal) := do
  let frameSize := 2 ^ (jsRound (Real.logb 2 (frameDuration * samplingRate))).toNat
  if channelData.length < frameSize then return []
  else
    let hopSize := frameSize / 4
    let freqResolution := samplingRate / (frameSize : ℝ)
    let noiseWindowBins := (jsRound (50 / freqResolution)).toNat
    let starts ← frameStarts channelData.length frameSize hopSize
    let allFramesTonals ← starts.mapM fun i => do
      let frameData := (channelData.drop i).take frameSize
      let fp ← calculateWelchPsd frameData samplingRate frameSize
      let psd_db := fp.2.map fun p => 10 * jsLog10 (p + 1e-15)
      pure (frameTonals fp.1 psd_db freqRange minSnrDb noiseWindowBins)
    let bins := allFramesTonals.flatten.foldl addTonal []
    return (bins.filter fun b => minFramesPresent ≤ b.2.length).map fun b =>
      { frequency_mean := (b.2.foldl (fun sum t => sum + t.frequency) 0) / (b.2.length : ℝ),
        snr_mean := (b.2.foldl (fun sum t => sum + t.snr) 0) / (b.2.length : ℝ),
        power_mean := (b.2.foldl (fun sum t => sum + t.power) 0) / (b.2.length : ℝ),
        n_detections := b.2.length }

/-! ## DoA estimation (`calculateDoaVsTime`, lines 472-538) -/

structure DoaPoint where
  time : ℝ
  doa : ℝ
  confidence : ℝ

/-- The DoA point of one frame (lines 493-533).  The padded channel buffers are
fully overwritten with the frame slice each iteration.  The `fft` guard cannot
fire (`frameSize` is a power of two), so `fftCompute` is used directly. -/
def doaFramePoint (hData vxData vyData : List ℝ) (samplingRate : ℝ)
    (frameSize freqBin : ℕ) (i : ℕ) : DoaPoint :=
  let hFft := fftCompute ((hData.drop i).take frameSize)
  let vxFft := fftCompute ((vxData.drop i).take frameSize)
  let vyFft := fftCompute ((vyData.drop i).take frameSize)
  let h_re := hFft.1.getD freqBin 0
  let h_im := hFft.2.getD freqBin 0
  let vx_re := vxFft.1.getD freqBin 0
  let vx_im := vxFft.2.getD freqBin 0
  let vy_re := vyFft.1.getD freqBin 0
  let vy_im := vyFft.2.getD freqBin 0
  let G_ph_re := vx_re * h_re + vx_im * h_im
  let G_ph_im := vx_im * h_re - vx_re * h_im
  let G_pv_re := vy_re * h_re + vy_im * h_im
  let G_pv_im := vy_im * h_re - vy_re * h_im
  let doaRad := jsAtan2 G_pv_re G_ph_re
  let doaDeg := jsMod (doaRad * 180 / π + 360) 360
  let S_pp := h_re ^ 2 + h_im ^ 2
  let S_xx := vx_re ^ 2 + vx_im ^ 2
  let S_yy := vy_re ^ 2 + vy_im ^ 2
  let coherence_h := (G_ph_re ^ 2 + G_ph_im ^ 2) / (S_pp * S_xx + 1e-9)
  let coherence_v := (G_pv_re ^ 2 + G_pv_im ^ 2) / (S_pp * S_yy + 1e-9)
  let confidence := Real.sqrt (max 0 (min 1 coherence_h) * max 0 (min 1 coherence_v))
  { time := ((i : ℝ) + (frameSize : ℝ) / 2) / samplingRate,
    doa := doaDeg, confidence := confidence }

/-- `calculateDoaVsTime` (lines 472-538).  In the real-number model the computed
azimuth and confidence are always finite (the coherence denominators are
strictly positive), so the `isFinite` guard of line 532 always passes and every
frame contributes a point.  A negative rounded `freqBin` (possible only for
negative `tonalFreq`) is clamped to `0` by `Int.toNat`; in JS such a frame
would read `undefined` and be discarded by the `isFinite` guard. -/
def calculateDoaVsTime (hData vxData vyData : List ℝ)
    (samplingRate tonalFreq frameDuration : ℝ) : Option (List DoaPoint) := do
  let frameSize := 2 ^ (jsRound (Real.logb 2 (frameDuration * samplingRate))).toNat
  if hData.length < frameSize then return []
  else
    let hopSize := frameSize / 4
    let freqBin := (jsRound (tonalFreq * (frameSize : ℝ) / samplingRate)).toNat
    let starts ← frameStarts hData.length frameSize hopSize
    return starts.map (doaFramePoint hData vxData vyData samplingRate frameSize freqBin)

/-! ## Orientation correction (`correctDoa`, lines 61-95 and 578-609) -/

/-- `matmul3x3` (lines 75-85), with the accumulation loop unrolled. -/
def matmul3x3 (A B : Fin 3 → Fin 3 → ℝ) : Fin 3 → Fin 3 → ℝ :=
  fun i j => 0 + A i 0 * B 0 j + A i 1 * B 1 j + A i 2 * B 2 j

/-- `matVecMul3x3` (lines 87-95), with the accumulation loop unrolled. -/
def matVecMul3x3 (A : Fin 3 → Fin 3 → ℝ) (x : Fin 3 → ℝ) : Fin 3 → ℝ :=
  fun i => 0 + A i 0 * x 0 + A i 1 * x 1 + A i 2 * x 2

/-- `invert3x3` (lines 61-73): closed-form cofactor inverse, `none` on zero
determinant. -/
def invert3x3 (A : Fin 3 → Fin 3 → ℝ) : Option (Fin 3 → Fin 3 → ℝ) :=
  let a := A 0 0
  let b := A 0 1
  let c := A 0 2
  let d := A 1 0
  let e := A 1 1
  let f := A 1 2
  let g := A 2 0
  let h := A 2 1
  let i := A 2 2
  let det := a * (e * i - f * h) - b * (d * i - f * g) + c * (d * h - e * g)
  if det = 0 then none
  else
    let invDet := 1 / det
    some ![![(e * i - f * h) * invDet, (c * h - b * i) * invDet, (b * f - c * e) * invDet],
           ![(f * g - d * i) * invDet, (a * i - c * g) * invDet, (c * d - a * f) * invDet],
           ![(d * h - e * g) * invDet, (b * g - a * h) * invDet, (a * e - b * d) * invDet]]

/-- `correctDoa` (lines 578-609). -/
def correctDoa (doaAzimuth imuRoll imuPitch imuYaw : ℝ) (elevationFixed : ℝ := 0) : ℝ :=
  let doaRad := doaAzimuth * π / 180
  let rollRad := imuRoll * π / 180
  let pitchRad := imuPitch * π / 180
  let yawRad := imuYaw * π / 180
  let elevationRad := elevationFixed * π / 180
  let vector : Fin 3 → ℝ := ![Real.cos doaRad, Real.sin doaRad, Real.sin elevationRad]
  let cosY := Real.cos yawRad
  let sinY := Real.sin yawRad
  let R_yaw : Fin 3 → Fin 3 → ℝ := ![![cosY, -sinY, 0], ![sinY, cosY, 0], ![0, 0, 1]]
  let cosP := Real.cos pitchRad
  let sinP := Real.sin pitchRad
  let R_pitch : Fin 3 → Fin 3 → ℝ := ![![cosP, 0, sinP], ![0, 1, 0], ![-sinP, 0, cosP]]
  let cosR := Real.cos rollRad
  let sinR := Real.sin rollRad
  let R_roll : Fin 3 → Fin 3 → ℝ := ![![1, 0, 0], ![0, cosR, -sinR], ![0, sinR, cosR]]
  let R_total := matmul3x3 (matmul3x3 R_yaw R_pitch) R_roll
  match invert3x3 R_total with
  | none => doaAzimuth
  | some R_inverse =>
    let corrected_vector := matVecMul3x3 R_inverse vector
    let corrected_azimuth := jsAtan2 (corrected_vector 1) (corrected_vector 0) * 180 / π
    jsMod (corrected_azimuth + 360) 360

/-! ## Definitions modelled from the specification's words

These follow the claim text (not the source) and exist only to be compared
against the source-derived definitions above. -/

/-- Modelled from the spec (claim C6): the "boundary-interpolated" percentile —
linear interpolation between the bracketing order statistics of the ascending
sorted values (`none` on an empty list). -/
def percentileInterpolated (values : List ℝ) (percentile : ℝ) : Option ℝ :=
  let s := values.insertionSort (· ≤ ·)
  if s.length = 0 then none
  else
    let rank := percentile / 100 * ((s.length : ℝ) - 1)
    let lo := (⌊rank⌋).toNat
    some (s.getD lo 0 +
      (rank - (⌊rank⌋ : ℝ)) * (s.getD (min (lo + 1) (s.length - 1)) 0 - s.getD lo 0))

/-- Modelled from the spec (claim C7): per-frame peak detection in which the
noise floor is the median of the dB PSD values of the whole `freqRange` band of
the frame, and a local maximum is kept exactly when its height exceeds
`noiseFloor + minSnrDb`. -/
def frameTonalsSpec (freqs psd_db : List ℝ) (freqRange : ℝ × ℝ) (minSnrDb : ℝ) :
    List Tonal :=
  let band := ((List.range psd_db.length).filter fun k =>
    decide (freqRange.1 ≤ freqs.getD k 0 ∧ freqs.getD k 0 ≤ freqRange.2)).map
      (psd_db.getD · 0)
  let sortedBand := band.insertionSort (· ≤ ·)
  let noiseFloor := sortedBand.getD (sortedBand.length / 2) 0
  (List.range' 1 (psd_db.length - 2)).filterMap fun k =>
    if (freqRange.1 ≤ freqs.getD k 0 ∧ freqs.getD k 0 ≤ freqRange.2) ∧
       (psd_db.getD (k - 1) 0 < psd_db.getD k 0 ∧ psd_db.getD (k + 1) 0 < psd_db.getD k 0) ∧
       noiseFloor + minSnrDb < psd_db.getD k 0
    then some { frequency := freqs.getD k 0, power := psd_db.getD k 0,
                snr := psd_db.getD k 0 - noiseFloor }
    else none

/-- Modelled from the spec (claim C7): `detectTonals` with the per-frame noise
floor taken as the median of the whole `freqRange` band (`frameTonalsSpec`),
all other stages as in the source. -/
def detectTonalsSpec (channelData : List ℝ) (samplingRate : ℝ) (freqRange : ℝ × ℝ)
    (minSnrDb frameDuration : ℝ) (minFramesPresent : ℕ) :
    Option (List PersistentTonal) := do
  let frameSize := 2 ^ (jsRound (Real.logb 2 (frameDuration * samplingRate))).toNat
  if channelData.length < frameSize then return []
  else
    let hopSize := frameSize / 4
    let starts ← frameStarts channelData.length frameSize hopSize
    let allFramesTonals ← starts.mapM fun i => do
      let frameData := (channelData.drop i).take frameSize
      let fp ← calculateWelchPsd frameData samplingRate frameSize
      let psd_db := fp.2.map fun p => 10 * jsLog10 (p + 1e-15)
      pure (frameTonalsSpec fp.1 psd_db freqRange minSnrDb)
    let bins := allFramesTonals.flatten.foldl addTonal []
    return (bins.filter fun b => minFramesPresent ≤ b.2.length).map fun b =>
      { frequency_mean := (b.2.foldl (fun sum t => sum + t.frequency) 0) / (b.2.length : ℝ),
        snr_mean := (b.2.foldl (fun sum t => sum + t.snr) 0) / (b.2.length : ℝ),
        power_mean := (b.2.foldl (fun sum t => sum + t.power) 0) / (b.2.length : ℝ),
        n_detections := b.2.length }

/-- The part of claim C1 that identifies the spectrum: the DC bin is scaled by
`1/N` and the bin frequencies reach the Nyquist frequency `samplingRate / 2`. -/
def c1SpectrumClaim (data : List ℝ) (samplingRate : ℝ) : Prop :=
  let paddedLength := fftPadLen data.length
  ∃ ri mags freqs,
    fft (data ++ List.replicate (paddedLength - data.length) 0) = some ri ∧
    calculateFFT data samplingRate = some (mags, freqs) ∧
    mags.getD 0 0 =
      1 / (paddedLength : ℝ) *
        Real.sqrt (ri.1.getD 0 0 * ri.1.getD 0 0 + ri.2.getD 0 0 * ri.2.getD 0 0) ∧
    samplingRate / 2 ∈ freqs

/-! ## Supporting lemmas -/

theorem le_fftPadLen (len : ℕ) (h : 1 ≤ len) : len ≤ fftPadLen len := by
  unfold fftPadLen
  rw [if_pos (by omega : 0 < len)]
  set e := (⌈Real.logb 2 (len : ℝ)⌉).toNat with he
  have hlen : (0 : ℝ) < (len : ℝ) := by exact_mod_cast h
  have hlogb : Real.logb 2 (len : ℝ) ≤ (e : ℝ) := by
    refine le_trans (Int.le_ceil _) ?_
    exact_mod_cast Int.self_le_toNat _
  have h2 : (len : ℝ) ≤ (2 : ℝ) ^ (e : ℝ) := by
    calc (len : ℝ) = (2 : ℝ) ^ Real.logb 2 (len : ℝ) :=
          (Real.rpow_logb (by norm_num) (by norm_num) hlen).symm
      _ ≤ (2 : ℝ) ^ (e : ℝ) := Real.rpow_le_rpow_of_exponent_le (by norm_num) hlogb
  rw [Real.rpow_natCast] at h2
  exact_mod_cast h2

theorem two_dvd_fftPadLen (len : ℕ) (h : 2 ≤ len) : 2 ∣ fftPadLen len := by
  have h1 : 2 ≤ fftPadLen len := le_trans h (le_fftPadLen len (by omega))
  unfold fftPadLen at *
  rcases Nat.eq_zero_or_pos (if 0 < len then (⌈Real.logb 2 (len : ℝ)⌉).toNat else 0) with h0 | h0
  · rw [h0] at h1; norm_num at h1
  · exact dvd_pow_self 2 (by omega)

theorem fftPadLen_two : fftPadLen 2 = 2 := by
  unfold fftPadLen
  rw [if_pos (by norm_num)]
  have h : Real.logb 2 ((2 : ℕ) : ℝ) = 1 := by
    push_cast
    exact Real.logb_self_eq_one (by norm_num)
  rw [h]
  norm_num

theorem fftCompute_oneone : fftCompute [(1:ℝ), 1] = ([2, 0], [0, 0]) := by
  unfold fftCompute
  show (stageLens 2).foldl (butterflyStage 2) (bitrevPass 2 [(1:ℝ), 1], List.replicate 2 0) = _
  rw [show stageLens 2 = [2] from by simp [stageLens, Nat.log2, List.range_succ],
      show bitrevPass 2 [(1:ℝ), 1] = [1, 1] from by
        unfold bitrevPass
        rw [show List.range 2 = [0, 1] from rfl]
        simp only [List.foldl]
        rw [bitrevStep, bitrevStep]
        norm_num [bitrevWhile, bitrevWhileAux]]
  simp only [List.foldl, List.replicate]
  unfold butterflyStage
  norm_num
  rw [show List.range 1 = [0] from rfl]
  simp only [List.map, List.foldl]
  unfold butterflyBlock
  rw [show List.range 1 = [0] from rfl]
  simp only [List.foldl]
  rw [butterflyK]
  norm_num [Real.cos_pi, Real.sin_pi, List.set]

theorem calculateFFT_oneone : calculateFFT [1, 1] 2 = some ([2], [0]) := by
  unfold calculateFFT
  rw [show ([1, 1] : List ℝ).length = 2 from rfl, fftPadLen_two]
  norm_num
  rw [show fft [(1:ℝ), 1] = some (fftCompute [1, 1]) from by unfold fft; norm_num,
      fftCompute_oneone]
  simp only [Option.some.injEq]
  rw [show List.range 1 = [0] from rfl]
  norm_num
  rw [show (4:ℝ) = 2^2 by norm_num, Real.sqrt_sq (by norm_num : (0:ℝ) ≤ 2)]

theorem fft_pow_two (l : List ℝ) (e : ℕ) (h : l.length = 2 ^ e) :
    fft l = some (fftCompute l) := by
  unfold fft
  rw [h]
  simp [two_pow_land_pred]

/-- Claim C1, counterexample: on `data = [1, 1]`, `samplingRate = 2`, the
spectrum returned by `calculateFFT` does not satisfy the claimed shape — its
frequency list `[0]` never reaches the Nyquist frequency `1` (and its DC bin is
scaled by `2/N`, not `1/N`). -/
theorem c1_counterexample : ¬ c1SpectrumClaim [1, 1] 2 := by
  unfold c1SpectrumClaim
  rw [show ([1, 1] : List ℝ).length = 2 from rfl, fftPadLen_two]
  rintro ⟨ri, mags, freqs, hfft, hcalc, hdc, hnyq⟩
  rw [calculateFFT_oneone] at hcalc
  have h := Option.some.inj hcalc
  have hf : freqs = [0] := congrArg Prod.snd h |>.symm
  rw [hf] at hnyq
  norm_num at hnyq

/-- Claim C1 (amended): for data of length ≥ 2 and a positive sampling rate,
`calculateFFT` zero-pads to the next power-of-two length `N` and returns `N/2`
single-sided bins, every one of them (the DC bin included) scaled by `2/N` and
with no Nyquist bin; the bin frequencies are `k·samplingRate/N` for
`k < N/2`, strictly ascending, covering `[0, Nyquist)` but never reaching the
Nyquist frequency. -/
theorem c1_amended_onesided_spectrum (data : List ℝ) (samplingRate : ℝ)
    (hlen : 2 ≤ data.length) (hfs : 0 < samplingRate) :
    calculateFFT data samplingRate = some
      ((List.range (fftPadLen data.length / 2)).map fun i : ℕ =>
          2 / (fftPadLen data.length : ℝ) *
            Real.sqrt
              ((fftCompute (data ++ List.replicate (fftPadLen data.length - data.length) 0)).1.getD i 0 *
                 (fftCompute (data ++ List.replicate (fftPadLen data.length - data.length) 0)).1.getD i 0 +
               (fftCompute (data ++ List.replicate (fftPadLen data.length - data.length) 0)).2.getD i 0 *
                 (fftCompute (data ++ List.replicate (fftPadLen data.length - data.length) 0)).2.getD i 0),
       (List.range (fftPadLen data.length / 2)).map fun i : ℕ =>
          (i : ℝ) * samplingRate / (fftPadLen data.length : ℝ)) ∧
    List.Pairwise (· < ·) ((List.range (fftPadLen data.length / 2)).map fun i : ℕ =>
        (i : ℝ) * samplingRate / (fftPadLen data.length : ℝ)) ∧
    ∀ f ∈ ((List.range (fftPadLen data.length / 2)).map fun i : ℕ =>
        (i : ℝ) * samplingRate / (fftPadLen data.length : ℝ)), 0 ≤ f ∧ f < samplingRate / 2 := by
  have hN : 2 ≤ fftPadLen data.length := le_trans hlen (le_fftPadLen _ (by omega))
  have hdvd : 2 ∣ fftPadLen data.length := two_dvd_fftPadLen _ hlen
  have hNpos : (0 : ℝ) < (fftPadLen data.length : ℝ) := by
    exact_mod_cast lt_of_lt_of_le (by norm_num) hN
  have hle : data.length ≤ fftPadLen data.length := le_fftPadLen _ (by omega)
  have hpadlen : (data ++ List.replicate (fftPadLen data.length - data.length) 0).length
      = 2 ^ (if 0 < data.length then (⌈Real.logb 2 (data.length : ℝ)⌉).toNat else 0) := by
    have h1 : (data ++ List.replicate (fftPadLen data.length - data.length) 0).length
        = fftPadLen data.length := by
      simp only [List.length_append, List.length_replicate]
      omega
    exact h1.trans rfl
  refine ⟨?_, ?_, ?_⟩
  · unfold calculateFFT
    simp only [fft_pow_two _ _ hpadlen, if_pos hdvd]
  · rw [List.pairwise_map]
    refine List.Pairwise.imp ?_ (List.pairwise_lt_range _)
    intro i j hij
    exact div_lt_div_of_pos_right (mul_lt_mul_of_pos_right (by exact_mod_cast hij) hfs) hNpos
  · intro f hf
    obtain ⟨i, hi, rfl⟩ := List.mem_map.mp hf
    rw [List.mem_range] at hi
    constructor
    · positivity
    · rw [div_lt_div_iff₀ hNpos (by norm_num : (0:ℝ) < 2)]
      have h2i : 2 * i < fftPadLen data.length := by omega
      have h2i' : 2 * (i : ℝ) < (fftPadLen data.length : ℝ) := by exact_mod_cast h2i
      nlinarith

/-- Witness for the amended claim C1 at `data = [1, 1]`, `samplingRate = 2`. -/
theorem c1_amended_onesided_spectrum_witness :
    2 ≤ ([1, 1] : List ℝ).length ∧ (0 : ℝ) < 2 ∧
    (calculateFFT [1, 1] 2 = some
      ((List.range (fftPadLen ([1, 1] : List ℝ).length / 2)).map fun i : ℕ =>
          2 / (fftPadLen ([1, 1] : List ℝ).length : ℝ) *
            Real.sqrt
              ((fftCompute ([1, 1] ++ List.replicate (fftPadLen ([1, 1] : List ℝ).length - ([1, 1] : List ℝ).length) 0)).1.getD i 0 *
                 (fftCompute ([1, 1] ++ List.replicate (fftPadLen ([1, 1] : List ℝ).length - ([1, 1] : List ℝ).length) 0)).1.getD i 0 +
               (fftCompute ([1, 1] ++ List.replicate (fftPadLen ([1, 1] : List ℝ).length - ([1, 1] : List ℝ).length) 0)).2.getD i 0 *
                 (fftCompute ([1, 1] ++ List.replicate (fftPadLen ([1, 1] : List ℝ).length - ([1, 1] : List ℝ).length) 0)).2.getD i 0),
       (List.range (fftPadLen ([1, 1] : List ℝ).length / 2)).map fun i : ℕ =>
          (i : ℝ) * 2 / (fftPadLen ([1, 1] : List ℝ).length : ℝ)) ∧
    List.Pairwise (· < ·) ((List.range (fftPadLen ([1, 1] : List ℝ).length / 2)).map fun i : ℕ =>
        (i : ℝ) * 2 / (fftPadLen ([1, 1] : List ℝ).length : ℝ)) ∧
    ∀ f ∈ ((List.range (fftPadLen ([1, 1] : List ℝ).length / 2)).map fun i : ℕ =>
        (i : ℝ) * 2 / (fftPadLen ([1, 1] : List ℝ).length : ℝ)), 0 ≤ f ∧ f < 2 / 2) :=
  ⟨by norm_num, by norm_num,
   c1_amended_onesided_spectrum [1, 1] 2 (by norm_num) (by norm_num)⟩

/-- Claim C10: `calculateFFT` on the empty signal does not return an
empty/degenerate spectrum — it raises (`none`): the empty input is padded to
length `1`, and `new Array(1 / 2)` throws a `RangeError`. -/
theorem c10_calculateFFT_empty_raises (samplingRate : ℝ) :
    calculateFFT [] samplingRate = none := by
  unfold calculateFFT fftPadLen fft
  norm_num

/-! ## Claim C2: Welch estimator on short data -/

theorem welchBody_ne_some_nil (data : List ℝ) (samplingRate : ℝ) (nperseg : ℕ) :
    welchBody data samplingRate nperseg ≠ some ([], []) := by
  unfold welchBody
  intro hc
  rw [Option.map_eq_some'] at hc
  obtain ⟨starts, hs, hf⟩ := hc
  have h1 := congrArg Prod.fst hf
  rw [apply_ite Prod.fst] at h1
  simp only [ite_self] at h1
  have h2 := congrArg List.length h1
  simp at h2

theorem prevPow2Floor_pos (len : ℕ) (h : 1 ≤ len) : prevPow2Floor len ≠ 0 := by
  unfold prevPow2Floor
  rw [if_neg (by omega)]
  positivity

theorem logb_two_pow_nat (k : ℕ) : Real.logb 2 ((2 : ℝ) ^ k) = (k : ℝ) := by
  rw [Real.logb_pow, Real.logb_self_eq_one (by norm_num)]
  ring

theorem logb_two_four : Real.logb 2 ((4 : ℕ) : ℝ) = 2 := by
  rw [show ((4 : ℕ) : ℝ) = (2 : ℝ) ^ (2 : ℕ) by norm_num, logb_two_pow_nat]
  norm_num

theorem prevPow2Floor_four : prevPow2Floor 4 = 4 := by
  unfold prevPow2Floor
  rw [if_neg (by norm_num), logb_two_four]
  norm_num
  decide

theorem nextPow2Ceil_four : nextPow2Ceil 4 = 4 := by
  unfold nextPow2Ceil
  rw [if_neg (by norm_num), logb_two_four]
  norm_num
  decide

/-- Claim C2, counterexample: `calculateWelchPsd` on four samples with the
requested `nperseg = 256` does **not** return an empty estimate — it retries
with `nperseg` reduced to `4` and returns three bins. -/
theorem c2_counterexample :
    (calculateWelchPsd [1, 1, 1, 1] 8 256).map (fun r => (r.1.length, r.2.length))
      = some (3, 3) ∧
    ¬ (calculateWelchPsd [1, 1, 1, 1] 8 256 = some ([], [])) := by
  have hlen : (calculateWelchPsd [1, 1, 1, 1] 8 256).map (fun r => (r.1.length, r.2.length))
      = some (3, 3) := by
    unfold calculateWelchPsd
    rw [if_pos (by norm_num), show ([1,1,1,1] : List ℝ).length = 4 from rfl, prevPow2Floor_four,
        if_neg (by norm_num)]
    unfold welchBody
    rw [nextPow2Ceil_four, show ([1,1,1,1] : List ℝ).length = 4 from rfl]
    simp only [show frameStarts 4 4 (4 / 2) = some [0] from by decide, Option.map_some]
    norm_num
  refine ⟨hlen, fun hc => ?_⟩
  rw [hc, Option.map_some'] at hlen
  exact absurd (Option.some.inj hlen) (by decide)

/-- Claim C2 (amended): for any requested `nperseg ≥ 1`, `calculateWelchPsd`
returns the empty estimate exactly when `data` is empty; on nonempty data
shorter than `nperseg` it instead retries with `nperseg` reduced to the largest
power of two not exceeding `data.length` (never returning an empty estimate —
though it may fail to terminate when the reduced segment length is 1). -/
theorem c2_amended_empty_iff (data : List ℝ) (samplingRate : ℝ) (nperseg : ℕ)
    (h : 1 ≤ nperseg) :
    calculateWelchPsd data samplingRate nperseg = some ([], []) ↔ data = [] := by
  constructor
  · intro hc
    by_contra hne
    have hlen : 1 ≤ data.length := List.length_pos.mpr hne
    unfold calculateWelchPsd at hc
    split at hc
    · rw [if_neg (prevPow2Floor_pos _ hlen)] at hc
      exact welchBody_ne_some_nil _ _ _ hc
    · exact welchBody_ne_some_nil _ _ _ hc
  · rintro rfl
    unfold calculateWelchPsd
    rw [if_pos (by simpa using h)]
    simp [prevPow2Floor]

/-- Witness for the amended claim C2 at `data = []`, `nperseg = 256`. -/
theorem c2_amended_empty_iff_witness :
    1 ≤ 256 ∧ (calculateWelchPsd [] 8 256 = some ([], []) ↔ ([] : List ℝ) = []) :=
  ⟨by norm_num, c2_amended_empty_iff [] 8 256 (by norm_num)⟩

/-! ## Claim C4: graceful degradation of invalid filter configurations -/

theorem foldl_skip {α : Type*} (l : List α) (acc : ℝ) (step : ℝ → α → ℝ)
    (h : ∀ a j, j ∈ l → step a j = a) : l.foldl step acc = acc := by
  induction l generalizing acc with
  | nil => rfl
  | cons x xs ih =>
    rw [List.foldl_cons, h acc x (by simp)]
    exact ih acc (fun a j hj => h a j (by simp [hj]))

/-- On a one-sample signal the IIR recursion returns `[b₀ · x]`. -/
theorem applyIIRFilter_singleton (x : ℝ) (b a : List ℝ) (hb : b ≠ []) :
    applyIIRFilter [x] b a = [b.getD 0 0 * x] := by
  unfold applyIIRFilter iirStep
  rw [show ([x] : List ℝ).length = 1 from rfl, show List.range 1 = [0] from rfl]
  simp only [List.foldl]
  obtain ⟨b0, bs, rfl⟩ := List.exists_cons_of_ne_nil hb
  rw [show (b0 :: bs).length = bs.length + 1 from rfl, List.range_succ_eq_map,
      List.foldl_cons]
  rw [foldl_skip (l := List.map Nat.succ (List.range bs.length))
        (h := fun acc j hj => by
          obtain ⟨k, hk, rfl⟩ := List.mem_map.mp hj
          rw [if_neg (by omega)])]
  rw [foldl_skip (l := List.range' 1 (a.length - 1))
        (h := fun acc j hj => by
          have := List.mem_range'.mp hj
          rw [if_neg (by omega)])]
  norm_num

theorem sqrt_two_lt_two : Real.sqrt 2 < 2 := by
  nlinarith [Real.sq_sqrt (by norm_num : (0:ℝ) ≤ 2), Real.sqrt_nonneg 2]

/-- Claim C4, counterexample: a `LOWPASS` whose cutoff (36 Hz) exceeds the
Nyquist frequency (24 Hz at 48 Hz sampling) is **not** returned unfiltered —
the unguarded design produces `C = 1/tan(3π/4) = -1` and the output on `[1]`
is `[1/(2-√2)] ≠ [1]`. -/
theorem c4_counterexample :
    applyFilter [1] FilterType.LOWPASS ⟨Cutoff.single 36⟩ 48 ≠ [1] := by
  unfold applyFilter designButterworthFilter
  rw [if_neg (by simp : ¬ FilterType.LOWPASS = FilterType.NONE)]
  have htan : Real.tan (2 * π * 36 / 48 / 2) = -1 := by
    rw [show 2 * π * 36 / 48 / 2 = -(π/4) + π by ring, Real.tan_periodic (-(π/4)),
        Real.tan_neg, Real.tan_pi_div_four]
  simp only [htan]
  norm_num
  rw [applyIIRFilter_singleton _ _ _ (by simp)]
  have hlt := sqrt_two_lt_two
  have hnn := Real.sqrt_nonneg 2
  have h3 : (1:ℝ) + -Real.sqrt 2 + 1 ≠ 0 := by intro hc; nlinarith
  intro hc
  simp only [List.cons.injEq, and_true] at hc
  rw [List.getD_cons_zero, mul_one, inv_eq_one_div, div_eq_one_iff_eq h3] at hc
  nlinarith [Real.sq_sqrt (by norm_num : (0:ℝ) ≤ 2)]

/-- Claim C4 (amended): only the `BANDPASS` configuration is validated — a
bandpass whose low cutoff is non-positive, whose high cutoff does not exceed
its low cutoff, or whose high cutoff reaches the Nyquist frequency returns the
unfiltered input unchanged (hence free of NaN/Inf); `LOWPASS`/`HIGHPASS`
cutoffs at or above Nyquist are not guarded and produce filtered output. -/
theorem c4_amended_bandpass_guard (channelData : List ℝ) (low high samplingRate : ℝ)
    (h : low ≤ 0 ∨ high ≤ low ∨ samplingRate / 2 ≤ high) :
    applyFilter channelData FilterType.BANDPASS ⟨Cutoff.band low high⟩ samplingRate
      = channelData := by
  unfold applyFilter designButterworthFilter
  rw [if_neg (by simp : ¬ FilterType.BANDPASS = FilterType.NONE)]
  simp only []
  rw [if_pos h]
  norm_num

/-- Witness for the amended claim C4 at an inverted bandpass `(low, high) = (5, 3)`. -/
theorem c4_amended_bandpass_guard_witness :
    ((5:ℝ) ≤ 0 ∨ (3:ℝ) ≤ 5 ∨ (48:ℝ) / 2 ≤ 3) ∧
    applyFilter [1, 2] FilterType.BANDPASS ⟨Cutoff.band 5 3⟩ 48 = [1, 2] :=
  ⟨Or.inr (Or.inl (by norm_num)),
   c4_amended_bandpass_guard [1, 2] 5 3 48 (Or.inr (Or.inl (by norm_num)))⟩

/-! ## Claim C9: orientation-correction identity at zero attitude -/

/-- Claim C9: with zero roll, pitch and yaw (and the default zero elevation),
`correctDoa` returns the input azimuth unchanged modulo 360 degrees. -/
theorem c9_correctDoa_zero_attitude (doa : ℝ) :
    ∃ m : ℤ, correctDoa doa 0 0 0 = doa + 360 * (m : ℝ) := by
  unfold correctDoa
  simp only [Real.cos_zero, Real.sin_zero, neg_zero, zero_mul, mul_zero]
  norm_num [matmul3x3, invert3x3, matVecMul3x3, Matrix.cons_val_zero, Matrix.cons_val_one,
    Matrix.cons_val_two, Matrix.vecHead, Matrix.vecTail]
  set θ := doa * π / 180 with hθdef
  have hatan : jsAtan2 (Real.sin θ) (Real.cos θ) = θ + 2 * π * ⌊(π - θ) / (2 * π)⌋ := by
    unfold jsAtan2
    rw [Complex.ofReal_cos, Complex.ofReal_sin]
    have := Complex.arg_cos_add_sin_mul_I_sub θ
    linarith
  rw [hatan]
  unfold jsMod
  refine ⟨⌊(π - θ) / (2 * π)⌋ + 1 -
    jsTrunc (((θ + 2 * π * ⌊(π - θ) / (2 * π)⌋) * 180 / π + 360) / 360), ?_⟩
  have hπ : π ≠ 0 := Real.pi_ne_zero
  push_cast
  field_simp
  ring

/-! ## Claim C8: DoA point invariants -/

theorem jsMod_bounds (x y : ℝ) (hy : 0 < y) (hx : 0 ≤ x) :
    0 ≤ jsMod x y ∧ jsMod x y < y := by
  unfold jsMod jsTrunc
  rw [if_pos (div_nonneg hx hy.le)]
  constructor
  · have h1 : (⌊x / y⌋ : ℝ) ≤ x / y := Int.floor_le _
    have h2 : y * (⌊x / y⌋ : ℝ) ≤ y * (x / y) := mul_le_mul_of_nonneg_left h1 hy.le
    rw [mul_div_cancel₀ _ hy.ne'] at h2
    linarith
  · have h1 : x / y < (⌊x / y⌋ : ℝ) + 1 := Int.lt_floor_add_one _
    have h2 : y * (x / y) < y * ((⌊x / y⌋ : ℝ) + 1) := mul_lt_mul_of_pos_left h1 hy
    rw [mul_div_cancel₀ _ hy.ne'] at h2
    nlinarith

theorem jsAtan2_bounds (y x : ℝ) : -π < jsAtan2 y x ∧ jsAtan2 y x ≤ π := by
  unfold jsAtan2
  exact ⟨Complex.neg_pi_lt_arg _, Complex.arg_le_pi _⟩

theorem doaDeg_bounds (y x : ℝ) :
    0 ≤ jsMod (jsAtan2 y x * 180 / π + 360) 360 ∧
    jsMod (jsAtan2 y x * 180 / π + 360) 360 < 360 := by
  have h := (jsAtan2_bounds y x).1
  have hpi := Real.pi_pos
  have h1 : (-180 : ℝ) ≤ jsAtan2 y x * 180 / π := by
    rw [le_div_iff₀ hpi]
    nlinarith
  exact jsMod_bounds _ _ (by norm_num) (by linarith)

theorem clampedCoherence_bounds (a b : ℝ) :
    0 ≤ Real.sqrt (max 0 (min 1 a) * max 0 (min 1 b)) ∧
    Real.sqrt (max 0 (min 1 a) * max 0 (min 1 b)) ≤ 1 := by
  refine ⟨Real.sqrt_nonneg _, Real.sqrt_le_one.mpr ?_⟩
  have ha1 : max 0 (min 1 a) ≤ 1 := max_le (by norm_num) (min_le_left _ _)
  have hb0 : 0 ≤ max 0 (min 1 b) := le_max_left _ _
  have hb1 : max 0 (min 1 b) ≤ 1 := max_le (by norm_num) (min_le_left _ _)
  exact mul_le_one₀ ha1 hb0 hb1

theorem doaFramePoint_bounds (hData vxData vyData : List ℝ) (samplingRate : ℝ)
    (frameSize freqBin i : ℕ) :
    0 ≤ (doaFramePoint hData vxData vyData samplingRate frameSize freqBin i).doa ∧
    (doaFramePoint hData vxData vyData samplingRate frameSize freqBin i).doa < 360 ∧
    0 ≤ (doaFramePoint hData vxData vyData samplingRate frameSize freqBin i).confidence ∧
    (doaFramePoint hData vxData vyData samplingRate frameSize freqBin i).confidence ≤ 1 := by
  unfold doaFramePoint
  dsimp only
  exact ⟨(doaDeg_bounds _ _).1, (doaDeg_bounds _ _).2,
         (clampedCoherence_bounds _ _).1, (clampedCoherence_bounds _ _).2⟩

/-- Claim C8: every `DoaPoint` produced by `calculateDoaVsTime` has `doa` in
`[0, 360)` and `confidence` in `[0, 1]`.  (In the real-number model the
azimuth and confidence of every frame are finite — the coherence denominators
are strictly positive — so the `isFinite` discard guard never fires and every
frame yields a point.) -/
theorem c8_doa_point_bounds (hData vxData vyData : List ℝ)
    (samplingRate tonalFreq frameDuration : ℝ)
    (pts : List DoaPoint) (p : DoaPoint)
    (hres : calculateDoaVsTime hData vxData vyData samplingRate tonalFreq frameDuration
      = some pts)
    (hp : p ∈ pts) :
    0 ≤ p.doa ∧ p.doa < 360 ∧ 0 ≤ p.confidence ∧ p.confidence ≤ 1 := by
  unfold calculateDoaVsTime at hres
  dsimp only at hres
  split at hres
  · simp only [Option.pure_def, Option.some.injEq] at hres
    rw [← hres] at hp
    simp at hp
  · cases hstarts : frameStarts hData.length
        (2 ^ (jsRound (Real.logb 2 (frameDuration * samplingRate))).toNat)
        (2 ^ (jsRound (Real.logb 2 (frameDuration * samplingRate))).toNat / 4) with
    | none => rw [hstarts] at hres; simp at hres
    | some starts =>
      rw [hstarts] at hres
      simp only [Option.bind_eq_bind, Option.some_bind, Option.pure_def,
        Option.some.injEq] at hres
      rw [← hres] at hp
      obtain ⟨i, hi, rfl⟩ := List.mem_map.mp hp
      exact doaFramePoint_bounds _ _ _ _ _ _ _

theorem logb_two_four' : Real.logb 2 (4 : ℝ) = 2 := by
  rw [show (4 : ℝ) = (2 : ℝ) ^ (2 : ℕ) by norm_num, logb_two_pow_nat]
  norm_num

theorem jsRound_ofNat (n : ℕ) : jsRound (n : ℝ) = n := by
  unfold jsRound
  rw [Int.floor_eq_iff]
  constructor
  · push_cast; linarith
  · push_cast; linarith

theorem c8_witness_eval :
    calculateDoaVsTime [1, 0, 0, 0] [1, 0, 0, 0] [1, 0, 0, 0] 4 1 1
      = some [doaFramePoint [1, 0, 0, 0] [1, 0, 0, 0] [1, 0, 0, 0] 4 4 1 0] := by
  unfold calculateDoaVsTime
  rw [show (1 : ℝ) * 4 = 4 by norm_num, logb_two_four',
      show jsRound (2:ℝ) = ((2:ℕ) : ℤ) from by exact_mod_cast jsRound_ofNat 2]
  norm_num
  rw [show Int.toNat 2 = 2 from rfl]
  norm_num
  rw [show jsRound (1:ℝ) = ((1:ℕ) : ℤ) from by exact_mod_cast jsRound_ofNat 1,
      show frameStarts 4 4 1 = some [0] from by decide]
  simp

/-- Witness for claim C8: a one-frame run on `[1,0,0,0]` channels produces a
point, whose bounds follow from `c8_doa_point_bounds`. -/
theorem c8_doa_point_bounds_witness :
    calculateDoaVsTime [1, 0, 0, 0] [1, 0, 0, 0] [1, 0, 0, 0] 4 1 1
      = some [doaFramePoint [1, 0, 0, 0] [1, 0, 0, 0] [1, 0, 0, 0] 4 4 1 0] ∧
    (0 ≤ (doaFramePoint [1, 0, 0, 0] [1, 0, 0, 0] [1, 0, 0, 0] 4 4 1 0).doa ∧
     (doaFramePoint [1, 0, 0, 0] [1, 0, 0, 0] [1, 0, 0, 0] 4 4 1 0).doa < 360 ∧
     0 ≤ (doaFramePoint [1, 0, 0, 0] [1, 0, 0, 0] [1, 0, 0, 0] 4 4 1 0).confidence ∧
     (doaFramePoint [1, 0, 0, 0] [1, 0, 0, 0] [1, 0, 0, 0] 4 4 1 0).confidence ≤ 1) :=
  ⟨c8_witness_eval,
   c8_doa_point_bounds [1, 0, 0, 0] [1, 0, 0, 0] [1, 0, 0, 0] 4 1 1 _ _ c8_witness_eval
     (List.mem_singleton.mpr rfl)⟩

/-! ## Claims C5 and C6: `estimateNoise` -/

theorem insertionSort_ones :
    List.insertionSort (· ≤ ·) ([1, 1, 1] : List ℝ) = [1, 1, 1] := by
  simp [List.insertionSort, List.orderedInsert]

theorem noiseThreshold_ones : noiseThreshold [1, 1, 1] 50 = some 1 := by
  unfold noiseThreshold
  rw [insertionSort_ones]
  norm_num

theorem frameEnergiesOf_c5 : frameEnergiesOf [1, 1, 1, 1] 1 2 = some [1, 1, 1] := by
  unfold frameEnergiesOf
  norm_num
  rw [show Int.toNat 2 = 2 from rfl]
  refine ⟨[0, 1, 2], by decide, ?_⟩
  norm_num [List.foldl]

theorem noiseMaskOf_ones : noiseMaskOf [1, 1, 1] 50 = [true, true, true] := by
  unfold noiseMaskOf
  rw [noiseThreshold_ones]
  norm_num

theorem logb_two_six_floor : ⌊Real.logb 2 ((6 : ℕ) : ℝ)⌋ = 2 := by
  rw [Int.floor_eq_iff]
  constructor
  · rw [show ((2:ℤ) : ℝ) = ((2:ℕ) : ℝ) by norm_num]
    rw [Real.le_logb_iff_rpow_le (by norm_num) (by norm_num)]
    rw [Real.rpow_natCast]
    norm_num
  · rw [show ((2:ℤ) : ℝ) + 1 = ((3:ℕ) : ℝ) by norm_num]
    rw [Real.logb_lt_iff_lt_rpow (by norm_num) (by norm_num)]
    rw [Real.rpow_natCast]
    norm_num

theorem prevPow2Floor_six : prevPow2Floor 6 = 4 := by
  unfold prevPow2Floor
  rw [if_neg (by norm_num), logb_two_six_floor]
  decide

theorem welch_c5_some : ∃ fp, calculateWelchPsd [1, 1, 1, 1, 1, 1] 1 256 = some fp := by
  unfold calculateWelchPsd
  rw [if_pos (by norm_num), show ([1,1,1,1,1,1] : List ℝ).length = 6 from rfl,
      prevPow2Floor_six, if_neg (by norm_num)]
  unfold welchBody
  rw [show ([1,1,1,1,1,1] : List ℝ).length = 6 from rfl]
  simp only [show frameStarts 6 4 (4 / 2) = some [0, 2] from by decide, Option.map_some']
  exact ⟨_, rfl⟩

/-- Claim C5: the `NoiseInfo` invariant fails — on the four-sample signal
`[1,1,1,1]` at 1 Hz with 2-second frames and the 50th percentile, all three
50%-overlapping frames are classified as noise, their samples are pooled with
double counting, and `noise_percentage = 6/4·100 = 150 > 100`. -/
theorem c5_noise_percentage_exceeds_100 :
    (estimateNoise [1, 1, 1, 1] 1 2 50).map (fun info => info.noise_percentage)
      = some 150 ∧ ¬ ((150 : ℝ) ≤ 100) := by
  obtain ⟨fp, hW⟩ := welch_c5_some
  refine ⟨?_, by norm_num⟩
  unfold estimateNoise
  rw [frameEnergiesOf_c5]
  simp only [Option.bind_eq_bind, Option.some_bind]
  have hfl : (⌊(2:ℝ) * 1⌋).toNat = 2 := by
    rw [show ⌊(2:ℝ) * 1⌋ = 2 from by norm_num]
    rfl
  rw [show ([1, 1, 1, 1] : List ℝ).length = 4 from rfl, hfl,
      show frameStarts 4 2 (2 / 2) = some [0, 1, 2] from by decide]
  simp only [Option.some_bind]
  rw [if_neg (by norm_num : ¬ ([1, 1, 1] : List ℝ).length = 0)]
  rw [noiseMaskOf_ones, noiseThreshold_ones]
  rw [show List.filter (fun i => ([true, true, true] : List Bool).getD i false)
        (List.range ([true, true, true] : List Bool).length) = [0, 1, 2] from by decide]
  rw [show (([0, 1, 2] : List ℕ).flatMap
        fun i => List.take 2 (List.drop (i * (2 / 2)) ([1, 1, 1, 1] : List ℝ)))
      = [1, 1, 1, 1, 1, 1] from rfl]
  rw [if_pos (by norm_num : 0 < ([1, 1, 1, 1, 1, 1] : List ℝ).length)]
  rw [hW]
  simp only [Option.some_bind, Option.map_some']
  norm_num

theorem estimateNoise_fields (data : List ℝ) (fs fl p : ℝ) (info : NoiseInfo)
    (hres : estimateNoise data fs fl p = some info) (hne : info.frameEnergies ≠ []) :
    info.threshold = noiseThreshold info.frameEnergies p ∧
    info.noiseMask = noiseMaskOf info.frameEnergies p := by
  unfold estimateNoise at hres
  cases hE : frameEnergiesOf data fs fl with
  | none => rw [hE] at hres; simp at hres
  | some es =>
    rw [hE] at hres
    simp only [Option.bind_eq_bind, Option.some_bind] at hres
    cases hS : frameStarts data.length (⌊fl * fs⌋).toNat ((⌊fl * fs⌋).toNat / 2) with
    | none => rw [hS] at hres; simp at hres
    | some starts =>
      rw [hS] at hres
      simp only [Option.some_bind] at hres
      split at hres
      · simp only [Option.pure_def, Option.some.injEq] at hres
        rw [← hres] at hne
        simp at hne
      · split at hres
        · cases hw : calculateWelchPsd (((List.range (noiseMaskOf es p).length).filter
              fun i => (noiseMaskOf es p).getD i false).flatMap
              fun i => (data.drop (i * ((⌊fl * fs⌋).toNat / 2))).take (⌊fl * fs⌋).toNat) fs 256 with
          | none => rw [hw] at hres; simp at hres
          | some fp =>
            rw [hw] at hres
            simp only [Option.some_bind, Option.pure_def, Option.some.injEq] at hres
            rw [← hres]
            exact ⟨rfl, rfl⟩
        · simp only [Option.some_bind, Option.pure_def, Option.some.injEq] at hres
          rw [← hres]
          exact ⟨rfl, rfl⟩

theorem noiseThreshold_spec (es : List ℝ) (p : ℝ) (hne : es ≠ []) (h0 : 0 ≤ p)
    (h1 : p < 100) :
    ∃ t, noiseThreshold es p = some t ∧
      t = (es.insertionSort (· ≤ ·)).getD (⌊p / 100 * (es.length : ℝ)⌋).toNat 0 ∧
      t ∈ es ∧
      noiseMaskOf es p = es.map fun e => decide (e ≤ t) := by
  have hn : 0 < es.length := List.length_pos.mpr hne
  have hslen : (es.insertionSort (· ≤ ·)).length = es.length :=
    List.length_insertionSort _ _
  have hidx0 : (0 : ℤ) ≤ ⌊p / 100 * (es.length : ℝ)⌋ := by
    apply Int.floor_nonneg.mpr
    positivity
  have hidxlt : (⌊p / 100 * (es.length : ℝ)⌋).toNat < es.length := by
    have h2 : p / 100 * (es.length : ℝ) < (es.length : ℝ) := by
      have : p / 100 < 1 := by linarith
      have hl : (0 : ℝ) < (es.length : ℝ) := by exact_mod_cast hn
      nlinarith
    have h3 : ⌊p / 100 * (es.length : ℝ)⌋ < (es.length : ℤ) := by
      apply Int.floor_lt.mpr
      exact_mod_cast h2
    omega
  set idx := (⌊p / 100 * (es.length : ℝ)⌋).toNat with hidxdef
  have hidxs : idx < (es.insertionSort (· ≤ ·)).length := by rw [hslen]; exact hidxlt
  have hget : (es.insertionSort (· ≤ ·))[idx]? = some ((es.insertionSort (· ≤ ·)).getD idx 0) := by
    rw [List.getElem?_eq_getElem hidxs, List.getD_eq_getElem _ _ hidxs]
  have hth : noiseThreshold es p = some ((es.insertionSort (· ≤ ·)).getD idx 0) := by
    unfold noiseThreshold
    dsimp only
    rw [hslen, if_neg (by omega), hget]
  refine ⟨_, hth, rfl, ?_, ?_⟩
  · have hmem : (es.insertionSort (· ≤ ·)).getD idx 0 ∈ es.insertionSort (· ≤ ·) := by
      rw [List.getD_eq_getElem _ _ hidxs]
      exact List.getElem_mem _
    exact (List.perm_insertionSort _ _).mem_iff.mp hmem
  · unfold noiseMaskOf
    rw [hth]

theorem frameEnergiesOf_c6 : frameEnergiesOf [0, 0, 2] 1 2 = some [0, 2] := by
  unfold frameEnergiesOf
  norm_num
  rw [show Int.toNat 2 = 2 from rfl]
  refine ⟨[0, 1], by decide, ?_⟩
  norm_num [List.foldl]

theorem insertionSort_c6 :
    List.insertionSort (· ≤ ·) ([0, 2] : List ℝ) = [0, 2] := by
  simp [List.insertionSort, List.orderedInsert]

theorem noiseThreshold_c6 : noiseThreshold [0, 2] 50 = some 2 := by
  unfold noiseThreshold
  rw [insertionSort_c6]
  norm_num

theorem noiseMaskOf_c6 : noiseMaskOf [0, 2] 50 = [true, true] := by
  unfold noiseMaskOf
  rw [noiseThreshold_c6]
  norm_num

theorem welch_c6_some : ∃ fp, calculateWelchPsd [0, 0, 0, 2] 1 256 = some fp := by
  unfold calculateWelchPsd
  rw [if_pos (by norm_num), show ([0,0,0,2] : List ℝ).length = 4 from rfl,
      prevPow2Floor_four, if_neg (by norm_num)]
  unfold welchBody
  rw [show ([0,0,0,2] : List ℝ).length = 4 from rfl]
  simp only [show frameStarts 4 4 (4 / 2) = some [0] from by decide, Option.map_some']
  exact ⟨_, rfl⟩

theorem c6_eval_pair : ∃ info, estimateNoise [0, 0, 2] 1 2 50 = some info ∧
    info.frameEnergies = [0, 2] ∧ info.threshold = some 2 := by
  obtain ⟨fp, hW⟩ := welch_c6_some
  unfold estimateNoise
  rw [frameEnergiesOf_c6]
  simp only [Option.bind_eq_bind, Option.some_bind]
  have hfl : (⌊(2:ℝ) * 1⌋).toNat = 2 := by
    rw [show ⌊(2:ℝ) * 1⌋ = 2 from by norm_num]
    rfl
  rw [show ([0, 0, 2] : List ℝ).length = 3 from rfl, hfl,
      show frameStarts 3 2 (2 / 2) = some [0, 1] from by decide]
  simp only [Option.some_bind]
  rw [if_neg (by norm_num : ¬ ([0, 2] : List ℝ).length = 0)]
  rw [noiseMaskOf_c6, noiseThreshold_c6]
  rw [show List.filter (fun i => ([true, true] : List Bool).getD i false)
        (List.range ([true, true] : List Bool).length) = [0, 1] from by decide]
  rw [show (([0, 1] : List ℕ).flatMap
        fun i => List.take 2 (List.drop (i * (2 / 2)) ([0, 0, 2] : List ℝ)))
      = [0, 0, 0, 2] from rfl]
  rw [if_pos (by norm_num : 0 < ([0, 0, 0, 2] : List ℝ).length)]
  rw [hW]
  simp only [Option.some_bind, Option.pure_def, Option.some.injEq]
  exact ⟨_, rfl, rfl, rfl⟩

theorem percentileInterpolated_c6 : percentileInterpolated [0, 2] 50 = some 1 := by
  unfold percentileInterpolated
  rw [insertionSort_c6]
  norm_num

/-- Claim C6, counterexample: on `[0, 0, 2]` (frame energies `[0, 2]`) with the
50th percentile, `estimateNoise` returns the order statistic `2` as the
threshold, while the boundary-interpolated 50th percentile of `[0, 2]` is `1`. -/
theorem c6_counterexample :
    (estimateNoise [0, 0, 2] 1 2 50).map (fun info => (info.frameEnergies, info.threshold))
      = some ([0, 2], some 2) ∧
    percentileInterpolated [0, 2] 50 = some 1 ∧ (2 : ℝ) ≠ 1 := by
  obtain ⟨info, h, hE, hT⟩ := c6_eval_pair
  refine ⟨?_, percentileInterpolated_c6, by norm_num⟩
  rw [h, Option.map_some', hE, hT]

/-- Claim C6 (amended): for a percentile in `[0, 100)` and at least one frame,
the threshold returned by `estimateNoise` is the **order statistic** of the
frame energies at index `⌊percentile/100 · n⌋` (an element of `frameEnergies`,
with no interpolation), and every frame whose energy is `≤` that threshold is
marked `true` in `noiseMask`. -/
theorem c6_amended_order_statistic_threshold (data : List ℝ) (fs fl p : ℝ)
    (info : NoiseInfo) (h0 : 0 ≤ p) (h1 : p < 100)
    (hres : estimateNoise data fs fl p = some info)
    (hne : info.frameEnergies ≠ []) :
    ∃ t, info.threshold = some t ∧
      t = (info.frameEnergies.insertionSort (· ≤ ·)).getD
            (⌊p / 100 * (info.frameEnergies.length : ℝ)⌋).toNat 0 ∧
      t ∈ info.frameEnergies ∧
      info.noiseMask = info.frameEnergies.map fun e => decide (e ≤ t) := by
  obtain ⟨hth, hmask⟩ := estimateNoise_fields data fs fl p info hres hne
  obtain ⟨t, h1', h2', h3', h4'⟩ := noiseThreshold_spec info.frameEnergies p hne h0 h1
  exact ⟨t, hth.trans h1', h2', h3', hmask.trans h4'⟩

/-- The `NoiseInfo` that `estimateNoise` returns on the concrete input of the
claim C6 witness. -/
def c6Info : NoiseInfo := (estimateNoise [0, 0, 2] 1 2 50).getD
  { noise_power_db := none, noise_percentage := 0, noise_samples_count := 0, freqs := [],
    psd_db := [], frameEnergies := [], frameTimes := [], threshold := none, noiseMask := [] }

theorem c6Info_some : estimateNoise [0, 0, 2] 1 2 50 = some c6Info := by
  obtain ⟨info, h, hE, hT⟩ := c6_eval_pair
  unfold c6Info
  rw [h]
  rfl

theorem c6Info_energies : c6Info.frameEnergies = [0, 2] := by
  obtain ⟨info, h, hE, hT⟩ := c6_eval_pair
  unfold c6Info
  rw [h]
  exact hE

/-- Witness for the amended claim C6 at `estimateNoise [0,0,2] 1 2 50`. -/
theorem c6_amended_order_statistic_threshold_witness :
    (0:ℝ) ≤ 50 ∧ (50:ℝ) < 100 ∧ estimateNoise [0, 0, 2] 1 2 50 = some c6Info ∧
    c6Info.frameEnergies ≠ [] ∧
    (∃ t, c6Info.threshold = some t ∧
      t = (c6Info.frameEnergies.insertionSort (· ≤ ·)).getD
            (⌊(50:ℝ) / 100 * (c6Info.frameEnergies.length : ℝ)⌋).toNat 0 ∧
      t ∈ c6Info.frameEnergies ∧
      c6Info.noiseMask = c6Info.frameEnergies.map fun e => decide (e ≤ t)) :=
  ⟨by norm_num, by norm_num, c6Info_some, by rw [c6Info_energies]; simp,
   c6_amended_order_statistic_threshold [0, 0, 2] 1 2 50 c6Info (by norm_num) (by norm_num)
     c6Info_some (by rw [c6Info_energies]; simp)⟩

/-! ## Claim C3: the BANDPASS filter -/

theorem tan_pi_div_eight_eq : Real.tan (π / 8) = Real.sqrt 2 - 1 := by
  have hs2 : Real.sqrt 2 ^ 2 = 2 := Real.sq_sqrt (by norm_num)
  have hs2nn : (0:ℝ) ≤ Real.sqrt 2 := Real.sqrt_nonneg 2
  have hs2le : Real.sqrt 2 ≤ 2 := by nlinarith
  have h1 : (0:ℝ) ≤ Real.sqrt 2 - 1 := by nlinarith
  have h2p : (0:ℝ) < 2 + Real.sqrt 2 := by nlinarith
  have h2m : (0:ℝ) ≤ 2 - Real.sqrt 2 := by nlinarith
  have htannn : 0 ≤ Real.tan (π / 8) :=
    le_of_lt (Real.tan_pos_of_pos_of_lt_pi_div_two (by positivity)
      (by nlinarith [Real.pi_pos]))
  have hcos : Real.cos (π / 8) ≠ 0 := by
    refine ne_of_gt (Real.cos_pos_of_mem_Ioo ⟨?_, ?_⟩) <;> nlinarith [Real.pi_pos]
  have key : Real.sin (π / 8) ^ 2 = (Real.sqrt 2 - 1) ^ 2 * Real.cos (π / 8) ^ 2 := by
    rw [Real.sin_pi_div_eight, Real.cos_pi_div_eight, div_pow, div_pow,
        Real.sq_sqrt h2m, Real.sq_sqrt h2p.le]
    field_simp
    linear_combination (-(Real.sqrt 2)) * hs2
  have hsq : Real.tan (π / 8) ^ 2 = (Real.sqrt 2 - 1) ^ 2 := by
    rw [Real.tan_eq_sin_div_cos, div_pow, key, mul_div_assoc,
        div_self (pow_ne_zero 2 hcos), mul_one]
  calc Real.tan (π / 8) = Real.sqrt (Real.tan (π / 8) ^ 2) := (Real.sqrt_sq htannn).symm
    _ = Real.sqrt ((Real.sqrt 2 - 1) ^ 2) := by rw [hsq]
    _ = Real.sqrt 2 - 1 := Real.sqrt_sq h1

theorem c3_bandpass_eval :
    applyFilter [1] FilterType.BANDPASS ⟨Cutoff.band 8 18⟩ 48 = [5 / 17] := by
  unfold applyFilter designButterworthFilter
  rw [if_neg (by simp : ¬ FilterType.BANDPASS = FilterType.NONE)]
  simp only []
  rw [if_neg (by norm_num : ¬ ((8:ℝ) ≤ 0 ∨ (18:ℝ) ≤ 8 ∨ (48:ℝ) / 2 ≤ 18))]
  rw [show ((8:ℝ) * 18) = 12 ^ 2 by norm_num, Real.sqrt_sq (by norm_num : (0:ℝ) ≤ 12)]
  rw [show 2 * π * 12 / 48 = π / 2 by ring, Real.sin_pi_div_two, Real.cos_pi_div_two]
  norm_num
  rw [applyIIRFilter_singleton _ _ _ (by simp)]
  norm_num

theorem sqrt_three_pos : (0:ℝ) < Real.sqrt 3 := Real.sqrt_pos.mpr (by norm_num)

theorem c3_highpass_eval :
    applyFilter [1] FilterType.HIGHPASS ⟨Cutoff.single 8⟩ 48
      = [3 / (4 + Real.sqrt 6)] := by
  unfold applyFilter designButterworthFilter
  rw [if_neg (by simp : ¬ FilterType.HIGHPASS = FilterType.NONE)]
  simp only []
  have hwc : 2 * π * 8 / 48 / 2 = π / 6 := by ring
  rw [hwc, Real.tan_pi_div_six]
  have h3 := sqrt_three_pos
  have hs3 : Real.sqrt 3 ^ 2 = 3 := Real.sq_sqrt (by norm_num)
  have hC : 1 / (1 / Real.sqrt 3) = Real.sqrt 3 := by field_simp
  rw [hC]
  have hs6 : Real.sqrt 2 * Real.sqrt 3 = Real.sqrt 6 := by
    rw [← Real.sqrt_mul (by norm_num : (0:ℝ) ≤ 2)]
    norm_num
  rw [hs6]
  norm_num
  rw [applyIIRFilter_singleton _ _ _ (by simp)]
  rw [show (3:ℝ) + Real.sqrt 6 + 1 = 4 + Real.sqrt 6 by ring]
  norm_num

theorem c3_lowpass_eval :
    applyFilter [3 / (4 + Real.sqrt 6)] FilterType.LOWPASS ⟨Cutoff.single 18⟩ 48
      = [1 / (6 - 3 * Real.sqrt 2) * (3 / (4 + Real.sqrt 6))] := by
  unfold applyFilter designButterworthFilter
  rw [if_neg (by simp : ¬ FilterType.LOWPASS = FilterType.NONE)]
  simp only []
  have hwc : 2 * π * 18 / 48 / 2 = π / 2 - π / 8 := by ring
  rw [hwc, Real.tan_pi_div_two_sub, tan_pi_div_eight_eq,
      show 1 / (Real.sqrt 2 - 1)⁻¹ = Real.sqrt 2 - 1 by rw [one_div, inv_inv]]
  have hs2 : Real.sqrt 2 ^ 2 = 2 := Real.sq_sqrt (by norm_num)
  have ha0 : (Real.sqrt 2 - 1) * (Real.sqrt 2 - 1) + Real.sqrt 2 * (Real.sqrt 2 - 1) + 1
      = 6 - 3 * Real.sqrt 2 := by linear_combination 2 * hs2
  rw [ha0]
  norm_num
  rw [applyIIRFilter_singleton _ _ _ (by simp)]
  norm_num

/-- Claim C3, counterexample: on the one-sample signal `[1]` at 48 Hz with the
band `(8, 18)`, `applyFilter BANDPASS` outputs `[5/17]` while the highpass (8)
followed by lowpass (18) composition outputs `[3/((6-3√2)(4+√6))] ≈ [0.265]` —
the two disagree. -/
theorem c3_counterexample :
    applyFilter [1] FilterType.BANDPASS ⟨Cutoff.band 8 18⟩ 48 ≠
      applyFilter (applyFilter [1] FilterType.HIGHPASS ⟨Cutoff.single 8⟩ 48)
        FilterType.LOWPASS ⟨Cutoff.single 18⟩ 48 := by
  rw [c3_bandpass_eval, c3_highpass_eval, c3_lowpass_eval]
  intro hceq
  simp only [List.cons.injEq, and_true] at hceq
  have hs2 : Real.sqrt 2 ^ 2 = 2 := Real.sq_sqrt (by norm_num)
  have hs6 : Real.sqrt 6 ^ 2 = 6 := Real.sq_sqrt (by norm_num)
  have hs2nn : (0:ℝ) ≤ Real.sqrt 2 := Real.sqrt_nonneg 2
  have hs6nn : (0:ℝ) ≤ Real.sqrt 6 := Real.sqrt_nonneg 6
  have ha : Real.sqrt 2 < 1.42 := by nlinarith
  have hb : (2.44:ℝ) < Real.sqrt 6 := by nlinarith
  have hb2 : Real.sqrt 6 < 2.45 := by nlinarith
  have hd1 : (0:ℝ) < 6 - 3 * Real.sqrt 2 := by nlinarith
  have hd2 : (0:ℝ) < 4 + Real.sqrt 6 := by nlinarith
  have key : (11:ℝ) < (6 - 3 * Real.sqrt 2) * (4 + Real.sqrt 6) := by nlinarith
  rw [div_mul_div_comm, one_mul] at hceq
  rw [div_eq_div_iff (by norm_num) (by positivity)] at hceq
  nlinarith

/-- Claim C3 (amended): a valid `BANDPASS` (0 < low < high < Nyquist) applies a
single second-order resonator biquad centred at the geometric mean
`√(low·high)` — coefficients `b = [α, 0, -α]/(1+α)`,
`a = [1, -2cos ω₀, 1-α]/(1+α)` — rather than a highpass/lowpass composition. -/
theorem c3_amended_bandpass_biquad (x : List ℝ) (low high fs : ℝ)
    (h0 : 0 < low) (h1 : low < high) (h2 : high < fs / 2) :
    applyFilter x FilterType.BANDPASS ⟨Cutoff.band low high⟩ fs =
      applyIIRFilter x
        [Real.sin (2 * π * Real.sqrt (low * high) / fs) /
            (2 * (Real.sqrt (low * high) / (high - low))) /
          (1 + Real.sin (2 * π * Real.sqrt (low * high) / fs) /
            (2 * (Real.sqrt (low * high) / (high - low)))),
         0 / (1 + Real.sin (2 * π * Real.sqrt (low * high) / fs) /
            (2 * (Real.sqrt (low * high) / (high - low)))),
         -(Real.sin (2 * π * Real.sqrt (low * high) / fs) /
            (2 * (Real.sqrt (low * high) / (high - low)))) /
          (1 + Real.sin (2 * π * Real.sqrt (low * high) / fs) /
            (2 * (Real.sqrt (low * high) / (high - low))))]
        [1,
         -2 * Real.cos (2 * π * Real.sqrt (low * high) / fs) /
          (1 + Real.sin (2 * π * Real.sqrt (low * high) / fs) /
            (2 * (Real.sqrt (low * high) / (high - low)))),
         (1 - Real.sin (2 * π * Real.sqrt (low * high) / fs) /
            (2 * (Real.sqrt (low * high) / (high - low)))) /
          (1 + Real.sin (2 * π * Real.sqrt (low * high) / fs) /
            (2 * (Real.sqrt (low * high) / (high - low))))] := by
  unfold applyFilter designButterworthFilter
  rw [if_neg (by simp : ¬ FilterType.BANDPASS = FilterType.NONE)]
  simp only []
  rw [if_neg (by push_neg; exact ⟨h0, h1, h2⟩ :
        ¬ (low ≤ 0 ∨ high ≤ low ∨ fs / 2 ≤ high))]
  rw [if_neg (by simp)]

/-- Witness for the amended claim C3 at `x = [1]`, band `(8, 18)`, 48 Hz. -/
theorem c3_amended_bandpass_biquad_witness :
    (0:ℝ) < 8 ∧ (8:ℝ) < 18 ∧ (18:ℝ) < 48 / 2 ∧
    (    applyFilter [1] FilterType.BANDPASS ⟨Cutoff.band 8 18⟩ 48 =
      applyIIRFilter [1]
        [Real.sin (2 * π * Real.sqrt ((8:ℝ) * 18) / 48) /
            (2 * (Real.sqrt ((8:ℝ) * 18) / (18 - 8))) /
          (1 + Real.sin (2 * π * Real.sqrt ((8:ℝ) * 18) / 48) /
            (2 * (Real.sqrt ((8:ℝ) * 18) / (18 - 8)))),
         0 / (1 + Real.sin (2 * π * Real.sqrt ((8:ℝ) * 18) / 48) /
            (2 * (Real.sqrt ((8:ℝ) * 18) / (18 - 8)))),
         -(Real.sin (2 * π * Real.sqrt ((8:ℝ) * 18) / 48) /
            (2 * (Real.sqrt ((8:ℝ) * 18) / (18 - 8)))) /
          (1 + Real.sin (2 * π * Real.sqrt ((8:ℝ) * 18) / 48) /
            (2 * (Real.sqrt ((8:ℝ) * 18) / (18 - 8))))]
        [1,
         -2 * Real.cos (2 * π * Real.sqrt ((8:ℝ) * 18) / 48) /
          (1 + Real.sin (2 * π * Real.sqrt ((8:ℝ) * 18) / 48) /
            (2 * (Real.sqrt ((8:ℝ) * 18) / (18 - 8)))),
         (1 - Real.sin (2 * π * Real.sqrt ((8:ℝ) * 18) / 48) /
            (2 * (Real.sqrt ((8:ℝ) * 18) / (18 - 8)))) /
          (1 + Real.sin (2 * π * Real.sqrt ((8:ℝ) * 18) / 48) /
            (2 * (Real.sqrt ((8:ℝ) * 18) / (18 - 8))))]) :=
  ⟨by norm_num, by norm_num, by norm_num,
   c3_amended_bandpass_biquad [1] 8 18 48 (by norm_num) (by norm_num) (by norm_num)⟩
/-! ## Claim C7: the `detectTonals` noise floor -/

theorem hannWindow_four : hannWindow 4 = [0, 3 / 4, 3 / 4, 0] := by
  unfold hannWindow
  rw [show List.range 4 = [0, 1, 2, 3] from rfl]
  simp only [List.map]
  norm_num
  constructor
  · rw [show 2 * π / 3 = π - π / 3 by ring, Real.cos_pi_sub, Real.cos_pi_div_three]
    norm_num
  · rw [show 2 * π * 2 / 3 = 2 * π - (π - π / 3) by ring,
        Real.cos_two_pi_sub, Real.cos_pi_sub, Real.cos_pi_div_three]
    norm_num

theorem fftCompute_c7 :
    fftCompute [(0:ℝ), 3/4, 0, 0] = ([3/4, 0, -(3/4), 0], [0, -(3/4), 0, 3/4]) := by
  unfold fftCompute
  show (stageLens 4).foldl (butterflyStage 4) (bitrevPass 4 [(0:ℝ), 3/4, 0, 0], List.replicate 4 0) = _
  rw [show stageLens 4 = [2, 4] from by simp [stageLens, Nat.log2, List.range_succ],
      show bitrevPass 4 [(0:ℝ), 3/4, 0, 0] = [0, 0, 3/4, 0] from by
        unfold bitrevPass
        rw [show List.range 4 = [0, 1, 2, 3] from rfl]
        simp only [List.foldl]
        rw [bitrevStep, bitrevStep, bitrevStep, bitrevStep]
        norm_num [bitrevWhile, bitrevWhileAux]]
  simp only [List.foldl, List.replicate]
  unfold butterflyStage
  norm_num
  rw [show List.range 2 = [0, 1] from rfl, show List.range 1 = [0] from rfl]
  simp only [List.map, List.foldl]
  unfold butterflyBlock
  rw [show List.range 1 = [0] from rfl, show List.range 2 = [0, 1] from rfl]
  simp only [List.foldl]
  rw [butterflyK, butterflyK, butterflyK, butterflyK]
  have h1 : -(2 * π) / 4 = -(π / 2) := by ring
  have h2 : (-2) * π / 2 = -π := by ring
  norm_num [h1, h2, Real.cos_pi, Real.sin_pi, Real.cos_pi_div_two, Real.sin_pi_div_two,
            List.set, List.getD]

theorem welch_c7 :
    calculateWelchPsd [0, 1, 0, 0] 4 4 = some ([0, 1, 2], [1/8, 1/4, 1/8]) := by
  unfold calculateWelchPsd
  rw [if_neg (by norm_num)]
  unfold welchBody
  rw [show ([0, 1, 0, 0] : List ℝ).length = 4 from rfl, nextPow2Ceil_four]
  dsimp only
  rw [show frameStarts 4 4 (4 / 2) = some [0] from by decide]
  simp only [Option.map_some', Option.some.injEq]
  rw [hannWindow_four]
  simp only [List.foldl]
  rw [show List.zipWith (· * ·) (List.take 4 (List.drop 0 ([0, 1, 0, 0] : List ℝ)))
        [0, 3/4, 3/4, 0] ++ List.replicate (4 - 4) (0:ℝ) = [0, 3/4, 0, 0] from by
      norm_num [List.zipWith]]
  rw [fftCompute_c7]
  rw [if_pos (by norm_num)]
  simp only [Prod.mk.injEq]
  constructor
  · rw [show List.range (4 / 2 + 1) = [0, 1, 2] from rfl]
    norm_num
  · rw [show List.range (4 / 2 + 1) = [0, 1, 2] from rfl]
    simp only [List.map, List.getD, List.getElem?_cons_zero, List.getElem?_cons_succ,
               List.foldl, List.length_cons, List.length_nil]
    norm_num

theorem c7_db_lt :
    10 * jsLog10 (1/8 + 1e-15) < 10 * jsLog10 ((1:ℝ)/4 + 1e-15) := by
  unfold jsLog10
  have h := Real.logb_lt_logb (b := 10) (by norm_num)
    (show (0:ℝ) < 1/8 + 1e-15 by norm_num)
    (show (1:ℝ)/8 + 1e-15 < 1/4 + 1e-15 by norm_num)
  linarith

theorem c7_db_snr :
    (1:ℝ) ≤ 10 * jsLog10 ((1:ℝ)/4 + 1e-15) - 10 * jsLog10 (1/8 + 1e-15) := by
  unfold jsLog10
  have hx : ((1:ℝ)/8 + 1e-15) ≠ 0 := by norm_num
  have hy : ((1:ℝ)/4 + 1e-15) ≠ 0 := by norm_num
  have hdiv : Real.logb 10 ((1/4 + 1e-15) / ((1:ℝ)/8 + 1e-15))
      = Real.logb 10 ((1:ℝ)/4 + 1e-15) - Real.logb 10 ((1:ℝ)/8 + 1e-15) :=
    Real.logb_div hy hx
  have hq : (1:ℝ) ≤ 10 * Real.logb 10 ((1/4 + 1e-15) / ((1:ℝ)/8 + 1e-15)) := by
    rw [show (10:ℝ) * Real.logb 10 ((1/4 + 1e-15) / ((1:ℝ)/8 + 1e-15))
          = Real.logb 10 (((1/4 + 1e-15) / ((1:ℝ)/8 + 1e-15)) ^ (10:ℕ)) from by
        rw [Real.logb_pow]
        norm_num]
    rw [show (1:ℝ) = ((1:ℕ):ℝ) by norm_num,
        Real.le_logb_iff_rpow_le (by norm_num) (by positivity)]
    rw [Real.rpow_natCast]
    norm_num
  rw [hdiv] at hq
  linarith

theorem insertionSort_aba (a b : ℝ) (hab : a < b) :
    List.insertionSort (· ≤ ·) [a, b, a] = [a, a, b] := by
  simp [List.insertionSort, List.orderedInsert, not_le.mpr hab, le_refl]

theorem insertionSort_c7 :
    List.insertionSort (· ≤ ·)
      ([10 * jsLog10 (1/8 + 1e-15), 10 * jsLog10 ((1:ℝ)/4 + 1e-15),
        10 * jsLog10 (1/8 + 1e-15)] : List ℝ)
      = [10 * jsLog10 (1/8 + 1e-15), 10 * jsLog10 (1/8 + 1e-15),
         10 * jsLog10 ((1:ℝ)/4 + 1e-15)] :=
  insertionSort_aba _ _ c7_db_lt

theorem noiseFloorAt_c7 :
    noiseFloorAt [10 * jsLog10 (1/8 + 1e-15), 10 * jsLog10 ((1:ℝ)/4 + 1e-15),
        10 * jsLog10 (1/8 + 1e-15)] 1 50
      = 10 * jsLog10 (1/8 + 1e-15) := by
  unfold noiseFloorAt
  dsimp only
  rw [show List.range' (1 - 50) (1 - 1 - (1 - 50)) = ([] : List ℕ) from rfl]
  rw [show (List.length [10 * jsLog10 (1/8 + 1e-15), 10 * jsLog10 ((1:ℝ)/4 + 1e-15),
        10 * jsLog10 (1/8 + 1e-15)]) = 3 from rfl]
  rw [show List.range' (1 + 2) (min (3 - 1) (1 + 50) + 1 - (1 + 2)) = ([] : List ℕ) from rfl]
  rw [if_neg (by norm_num)]
  rw [insertionSort_c7]
  rfl

theorem frameTonals_c7 :
    frameTonals [0, 1, 2]
      [10 * jsLog10 (1/8 + 1e-15), 10 * jsLog10 ((1:ℝ)/4 + 1e-15),
       10 * jsLog10 (1/8 + 1e-15)] (1, 1) 1 50
      = [{ frequency := 1, power := 10 * jsLog10 ((1:ℝ)/4 + 1e-15),
           snr := 10 * jsLog10 ((1:ℝ)/4 + 1e-15) - 10 * jsLog10 (1/8 + 1e-15) }] := by
  unfold frameTonals
  rw [show (List.length [10 * jsLog10 (1/8 + 1e-15), 10 * jsLog10 ((1:ℝ)/4 + 1e-15),
        10 * jsLog10 (1/8 + 1e-15)]) = 3 from rfl]
  rw [show List.range' 1 (3 - 2) = [1] from rfl]
  simp only [List.filterMap]
  rw [noiseFloorAt_c7]
  rw [if_pos ?hc]
  case hc =>
    refine ⟨⟨by norm_num, by norm_num⟩, ⟨c7_db_lt, c7_db_lt⟩, ?_⟩
    show (1:ℝ) ≤ 10 * jsLog10 ((1:ℝ)/4 + 1e-15) - 10 * jsLog10 (1/8 + 1e-15)
    exact c7_db_snr
  rfl

theorem frameTonalsSpec_c7 :
    frameTonalsSpec [0, 1, 2]
      [10 * jsLog10 (1/8 + 1e-15), 10 * jsLog10 ((1:ℝ)/4 + 1e-15),
       10 * jsLog10 (1/8 + 1e-15)] (1, 1) 1
      = [] := by
  unfold frameTonalsSpec
  dsimp only
  rw [show (List.length [10 * jsLog10 (1/8 + 1e-15), 10 * jsLog10 ((1:ℝ)/4 + 1e-15),
        10 * jsLog10 (1/8 + 1e-15)]) = 3 from rfl]
  rw [show List.range' 1 (3 - 2) = [1] from rfl]
  rw [show List.filter (fun k => decide ((1:ℝ) ≤ ([0, 1, 2] : List ℝ).getD k 0 ∧
        ([0, 1, 2] : List ℝ).getD k 0 ≤ 1)) (List.range 3) = [1] from by
      rw [show List.range 3 = [0, 1, 2] from rfl]
      simp only [List.filter]
      norm_num]
  simp only [List.filterMap, List.map, List.insertionSort, List.orderedInsert]
  rw [if_neg ?hn]
  case hn =>
    intro h
    obtain ⟨-, -, hsnr⟩ := h
    revert hsnr
    show ¬ ([10 * jsLog10 ((1:ℝ)/4 + 1e-15)] : List ℝ).getD (1 / 2) 0 + 1
        < [10 * jsLog10 (1/8 + 1e-15), 10 * jsLog10 ((1:ℝ)/4 + 1e-15),
           10 * jsLog10 (1/8 + 1e-15)].getD 1 0
    norm_num

theorem detectTonals_c7 :
    detectTonals [0, 1, 0, 0] 4 (1, 1) 1 1 1
      = some [{ frequency_mean := 1,
                snr_mean := 10 * jsLog10 ((1:ℝ)/4 + 1e-15) - 10 * jsLog10 (1/8 + 1e-15),
                power_mean := 10 * jsLog10 ((1:ℝ)/4 + 1e-15),
                n_detections := 1 }] := by
  unfold detectTonals
  rw [show (1:ℝ) * 4 = 4 by norm_num, logb_two_four',
      show jsRound (2:ℝ) = ((2:ℕ) : ℤ) from by exact_mod_cast jsRound_ofNat 2]
  rw [show Int.toNat ((2:ℕ) : ℤ) = 2 from rfl]
  rw [show ([0, 1, 0, 0] : List ℝ).length = 4 from rfl]
  rw [if_neg (by norm_num)]
  dsimp only
  rw [show frameStarts 4 (2^2) (2^2/4) = some [0] from by decide]
  simp only [Option.bind_eq_bind, Option.some_bind]
  rw [List.mapM_cons, List.mapM_nil]
  rw [show List.take (2^2) (List.drop 0 ([0, 1, 0, 0] : List ℝ)) = [0, 1, 0, 0] from rfl]
  rw [show (2:ℕ)^2 = 4 from rfl, welch_c7]
  simp only [Option.bind_eq_bind, Option.some_bind, Option.pure_def, Option.some.injEq]
  rw [show (50:ℝ) / (4 / ((4:ℕ):ℝ)) = 50 by norm_num,
      show jsRound (50:ℝ) = ((50:ℕ) : ℤ) from by exact_mod_cast jsRound_ofNat 50,
      show Int.toNat ((50:ℕ) : ℤ) = 50 from rfl]
  simp only [List.map]
  rw [show (10:ℝ) * jsLog10 (1/8 + 1e-15) = 10 * jsLog10 (1/8 + 1e-15) from rfl]
  rw [frameTonals_c7]
  simp only [List.flatten, List.append_nil, List.foldl]
  rw [show addTonal []
        { frequency := 1, power := 10 * jsLog10 ((1:ℝ)/4 + 1e-15),
          snr := 10 * jsLog10 ((1:ℝ)/4 + 1e-15) - 10 * jsLog10 (1/8 + 1e-15) }
      = [((1:ℤ),
          [{ frequency := 1, power := 10 * jsLog10 ((1:ℝ)/4 + 1e-15),
             snr := 10 * jsLog10 ((1:ℝ)/4 + 1e-15) - 10 * jsLog10 (1/8 + 1e-15) }])] from by
    unfold addTonal addTonalAux insertBinSorted
    rw [show jsRound (1:ℝ) = ((1:ℕ) : ℤ) from by exact_mod_cast jsRound_ofNat 1]
    rfl]
  simp only [List.filter, List.map]
  norm_num

theorem detectTonalsSpec_c7 :
    detectTonalsSpec [0, 1, 0, 0] 4 (1, 1) 1 1 1 = some [] := by
  unfold detectTonalsSpec
  rw [show (1:ℝ) * 4 = 4 by norm_num, logb_two_four',
      show jsRound (2:ℝ) = ((2:ℕ) : ℤ) from by exact_mod_cast jsRound_ofNat 2]
  rw [show Int.toNat ((2:ℕ) : ℤ) = 2 from rfl]
  rw [show ([0, 1, 0, 0] : List ℝ).length = 4 from rfl]
  rw [if_neg (by norm_num)]
  dsimp only
  rw [show frameStarts 4 (2^2) (2^2/4) = some [0] from by decide]
  simp only [Option.bind_eq_bind, Option.some_bind]
  rw [List.mapM_cons, List.mapM_nil]
  rw [show List.take (2^2) (List.drop 0 ([0, 1, 0, 0] : List ℝ)) = [0, 1, 0, 0] from rfl]
  rw [show (2:ℕ)^2 = 4 from rfl, welch_c7]
  simp only [Option.bind_eq_bind, Option.some_bind, Option.pure_def, Option.some.injEq]
  simp only [List.map]
  rw [frameTonalsSpec_c7]
  simp only [List.flatten, List.append_nil, List.foldl, List.filter, List.map]

theorem noiseFloorAt_small (psd_db : List ℝ) (k nw : ℕ)
    (hsmall : noiseWindowCount psd_db k nw ≤ 5) :
    noiseFloorAt psd_db k nw
      = (psd_db.insertionSort (· ≤ ·)).getD (psd_db.length / 2) 0 := by
  unfold noiseFloorAt
  dsimp only
  rw [if_neg (by
    simp only [List.length_append, List.length_map, List.length_range']
    unfold noiseWindowCount at hsmall
    omega)]
  rw [List.length_insertionSort]

theorem median_mem (l : List ℝ) (hne : l ≠ []) :
    (l.insertionSort (· ≤ ·)).getD (l.length / 2) 0 ∈ l := by
  have hlen : (l.insertionSort (· ≤ ·)).length = l.length := List.length_insertionSort _ _
  have hpos : 0 < l.length := List.length_pos.mpr hne
  have hidx : l.length / 2 < (l.insertionSort (· ≤ ·)).length := by omega
  rw [List.getD_eq_getElem _ _ hidx]
  exact (List.perm_insertionSort _ l).mem_iff.mp (List.getElem_mem hidx)

theorem median_majority (l : List ℝ) (hne : l ≠ []) :
    l.length / 2 <
      (l.filter fun x =>
          decide (x ≤ (l.insertionSort (· ≤ ·)).getD (l.length / 2) 0)).length := by
  set s := l.insertionSort (· ≤ ·) with hs
  have hlen : s.length = l.length := List.length_insertionSort _ _
  have hpos : 0 < l.length := List.length_pos.mpr hne
  have hidx : l.length / 2 < s.length := by omega
  set m := s.getD (l.length / 2) 0 with hm
  have hperm : List.Perm s l := List.perm_insertionSort _ l
  have hfilter : (l.filter fun x => decide (x ≤ m)).length
      = (s.filter fun x => decide (x ≤ m)).length :=
    ((hperm.filter _).length_eq).symm
  rw [hfilter]
  have hsorted : s.Sorted (· ≤ ·) := List.sorted_insertionSort _ l
  have htake : (s.take (l.length / 2 + 1)).filter (fun x => decide (x ≤ m))
      = s.take (l.length / 2 + 1) := by
    rw [List.filter_eq_self]
    intro x hx
    obtain ⟨i, hi, hgi⟩ := List.mem_take_iff_getElem.mp hx
    have hile : i ≤ l.length / 2 := by omega
    have hm' : m = s.get ⟨l.length / 2, hidx⟩ := by
      rw [hm, List.getD_eq_getElem _ _ hidx]
      rfl
    have hrel : s.get ⟨i, by omega⟩ ≤ s.get ⟨l.length / 2, hidx⟩ :=
      hsorted.rel_get_of_le (by simpa using hile)
    have hgi' : s.get ⟨i, by omega⟩ = x := by
      rw [← hgi]
      rfl
    rw [← hgi']
    simp only [decide_eq_true_eq]
    rw [hm']
    exact hrel
  have hsub : ((s.take (l.length / 2 + 1)).filter (fun x => decide (x ≤ m))).length
      ≤ (s.filter (fun x => decide (x ≤ m))).length :=
    ((List.take_sublist _ _).filter _).length_le
  rw [htake] at hsub
  have hlentake : (s.take (l.length / 2 + 1)).length = l.length / 2 + 1 := by
    rw [List.length_take]
    omega
  omega

/-- Claim C7 (amended): every tonal emitted by the per-frame peak scan of
`detectTonals` lies in the requested band and obeys the **non-strict** keep
rule `minSnrDb ≤ snr`; its noise floor `noiseFloorAt` does not depend on
`freqRange` (the tonal survives any band containing its frequency); and it
stems from an interior peak bin `k` whose snr is the peak height minus
`noiseFloorAt psd_db k noiseWindowBins`.  Whenever the censored
`±noiseWindowBins` window around the peak holds at most 5 values, that floor
is the median (upper order statistic at even length) of the **entire** frame
`psd_db` — an element of `psd_db` with more than half of `psd_db` at or below
it — not the median of the `freqRange` band. -/
theorem c7_amended_global_median_floor (freqs psd_db : List ℝ)
    (freqRange : ℝ × ℝ) (minSnrDb : ℝ) (nw : ℕ) (t : Tonal)
    (ht : t ∈ frameTonals freqs psd_db freqRange minSnrDb nw) :
    minSnrDb ≤ t.snr ∧
    freqRange.1 ≤ t.frequency ∧ t.frequency ≤ freqRange.2 ∧
    (∀ r : ℝ × ℝ, r.1 ≤ t.frequency → t.frequency ≤ r.2 →
      t ∈ frameTonals freqs psd_db r minSnrDb nw) ∧
    ∃ k, 1 ≤ k ∧ k + 1 < psd_db.length ∧
      t.frequency = freqs.getD k 0 ∧ t.power = psd_db.getD k 0 ∧
      t.snr = psd_db.getD k 0 - noiseFloorAt psd_db k nw ∧
      (noiseWindowCount psd_db k nw ≤ 5 →
        noiseFloorAt psd_db k nw ∈ psd_db ∧
        psd_db.length / 2 <
          (psd_db.filter fun x => decide (x ≤ noiseFloorAt psd_db k nw)).length) := by
  unfold frameTonals at ht
  obtain ⟨k, hk, hik⟩ := List.mem_filterMap.mp ht
  rw [List.mem_range'_1] at hk
  split at hik
  · rename_i hc
    obtain ⟨⟨hb1, hb2⟩, hmax, hsnr⟩ := hc
    obtain rfl := Option.some.inj hik
    have hlen : k + 1 < psd_db.length := by omega
    have hne : psd_db ≠ [] := by
      intro h
      rw [h] at hlen
      simp at hlen
    refine ⟨hsnr, hb1, hb2, ?_, k, by omega, hlen, rfl, rfl, rfl, ?_⟩
    · intro r hr1 hr2
      unfold frameTonals
      apply List.mem_filterMap.mpr
      refine ⟨k, List.mem_range'_1.mpr hk, ?_⟩
      rw [if_pos ⟨⟨hr1, hr2⟩, hmax, hsnr⟩]
    · intro hsmall
      rw [noiseFloorAt_small psd_db k nw hsmall]
      exact ⟨median_mem psd_db hne, median_majority psd_db hne⟩
  · simp at hik

theorem noiseFloorAt_wit : noiseFloorAt [0, 10, 0] 1 0 = 0 := by
  unfold noiseFloorAt
  dsimp only
  rw [show List.range' (1 - 0) (1 - 1 - (1 - 0)) = ([] : List ℕ) from rfl,
      show (List.length ([0, 10, 0] : List ℝ)) = 3 from rfl,
      show List.range' (1 + 2) (min (3 - 1) (1 + 0) + 1 - (1 + 2)) = ([] : List ℕ) from rfl]
  rw [if_neg (by norm_num)]
  rw [insertionSort_aba 0 10 (by norm_num)]
  rfl

theorem frameTonals_wit :
    frameTonals [0, 1, 2] [0, 10, 0] (1, 1) 1 0
      = [{ frequency := 1, power := 10, snr := 10 }] := by
  unfold frameTonals
  rw [show (List.length ([0, 10, 0] : List ℝ)) = 3 from rfl,
      show List.range' 1 (3 - 2) = [1] from rfl]
  simp only [List.filterMap]
  rw [noiseFloorAt_wit]
  rw [if_pos ?hc]
  case hc =>
    refine ⟨⟨by norm_num, by norm_num⟩, ⟨by norm_num, by norm_num⟩, ?_⟩
    show (1:ℝ) ≤ ([0, 10, 0] : List ℝ).getD 1 0 - 0
    norm_num
  norm_num

/-- Witness for the amended claim C7: the peak `⟨1, 10, 10⟩` found on the
frame `psd_db = [0, 10, 0]`, `freqs = [0, 1, 2]`, band `(1, 1)`,
`minSnrDb = 1`, `noiseWindowBins = 0`. -/
theorem c7_amended_global_median_floor_witness :
    ({ frequency := 1, power := 10, snr := 10 } : Tonal)
        ∈ frameTonals [0, 1, 2] [0, 10, 0] (1, 1) 1 0 ∧
    ((1:ℝ) ≤ ({ frequency := 1, power := 10, snr := 10 } : Tonal).snr ∧
     (1:ℝ) ≤ ({ frequency := 1, power := 10, snr := 10 } : Tonal).frequency ∧
     ({ frequency := 1, power := 10, snr := 10 } : Tonal).frequency ≤ (1:ℝ) ∧
     (∀ r : ℝ × ℝ, r.1 ≤ ({ frequency := 1, power := 10, snr := 10 } : Tonal).frequency →
        ({ frequency := 1, power := 10, snr := 10 } : Tonal).frequency ≤ r.2 →
        ({ frequency := 1, power := 10, snr := 10 } : Tonal)
          ∈ frameTonals [0, 1, 2] [0, 10, 0] r 1 0) ∧
     ∃ k, 1 ≤ k ∧ k + 1 < ([0, 10, 0] : List ℝ).length ∧
       ({ frequency := 1, power := 10, snr := 10 } : Tonal).frequency
           = ([0, 1, 2] : List ℝ).getD k 0 ∧
       ({ frequency := 1, power := 10, snr := 10 } : Tonal).power
           = ([0, 10, 0] : List ℝ).getD k 0 ∧
       ({ frequency := 1, power := 10, snr := 10 } : Tonal).snr
           = ([0, 10, 0] : List ℝ).getD k 0 - noiseFloorAt [0, 10, 0] k 0 ∧
       (noiseWindowCount [0, 10, 0] k 0 ≤ 5 →
         noiseFloorAt [0, 10, 0] k 0 ∈ ([0, 10, 0] : List ℝ) ∧
         ([0, 10, 0] : List ℝ).length / 2 <
           (([0, 10, 0] : List ℝ).filter fun x =>
               decide (x ≤ noiseFloorAt [0, 10, 0] k 0)).length)) :=
  have hmem : ({ frequency := 1, power := 10, snr := 10 } : Tonal)
      ∈ frameTonals [0, 1, 2] [0, 10, 0] (1, 1) 1 0 := by
    rw [frameTonals_wit]
    exact List.mem_singleton.mpr rfl
  ⟨hmem, c7_amended_global_median_floor [0, 1, 2] [0, 10, 0] (1, 1) 1 0 _ hmem⟩

/-- Claim C7, counterexample: on `[0, 1, 0, 0]` at 4 Hz (band `(1, 1)`,
`minSnrDb = 1`, `frameDuration = 1`, `minFramesPresent = 1`) the code keeps
the bin-1 peak — its censored local window is empty, so the floor is the
median of the whole 3-bin frame, namely the off-peak level — and reports one
persistent tonal, while the behaviour described by the claim (noise floor =
median of the `freqRange` band, which here is the peak bin itself, and a
strict `>` keep rule, modelled by `detectTonalsSpec`) reports none. -/
theorem c7_counterexample :
    detectTonals [0, 1, 0, 0] 4 (1, 1) 1 1 1
      ≠ detectTonalsSpec [0, 1, 0, 0] 4 (1, 1) 1 1 1 ∧
    (detectTonals [0, 1, 0, 0] 4 (1, 1) 1 1 1).map List.length = some 1 ∧
    (detectTonalsSpec [0, 1, 0, 0] 4 (1, 1) 1 1 1).map List.length = some 0 := by
  rw [detectTonals_c7, detectTonalsSpec_c7]
  refine ⟨by simp, by simp, by simp⟩
